import Mathlib

/-
  Shallow embedding of the RFID-Rainmaker firmware (Madhon17/RFID-Rainmaker).

  Three source files are modelled:
  * namespace `Cloud` : src/RFID_Controller_Version_cloud.ino
       (NVS key-value variant, per-card permission masks, MAX_CARDS = 64,
        MODE_TIMEOUT_MS = 15000).
  * namespace `Part0` : src/unnamed/part_000, an earlier revision of the same
       sketch; its global state and loop are identical to `Cloud` except for
       `exitToNormal`, which does not clear the staged marks.  Only that
       function is re-modelled here, over the same state type.
  * namespace `V102`  : src/RFID_V1.0.2.ino (EEPROM fixed-slot variant,
       CARD_SLOT_BYTES = 16, MAX_CARDS = 80, RFID_MODE_TIMEOUT_MS = 30000).

  Conventions of the embedding:
  * C arrays (mark[8], relayState[8], relayOffAt[8], toggleState[8]) and the
    EEPROM byte store are modelled as total maps `Nat → _`; `millis()` is a
    `Nat` and 32-bit wraparound of time arithmetic is not modelled (the
    firmware is only claimed about within a non-wrapping run).
  * Observable side effects referenced by the claims - the buzzer patterns,
    the Status / per-mark / LastAccess parameter reports and the EEPROM log
    records - are modelled as an emitted `Event` list.  Pure reporting calls
    not referenced by any claim (ListCards refresh, relay echo, CardCount)
    are omitted.
  * A buzzer pattern is the list of beep durations produced by the source
    buzzer helper (buzz(n, d) beeps n times for d ms each).
-/

namespace RFIDRainmaker

/-- Pointwise update of a total map; models assignment into a C array slot or
a byte of the EEPROM. -/
def updAt {α : Type} (f : Nat → α) (i : Nat) (v : α) : Nat → α :=
  fun j => if j = i then v else f j

/-- Observable side effects emitted by the firmware. -/
inductive Event where
  | status (msg : String)
  | reportMark (i : Nat) (v : Bool)
  | lastAccess (uid : String) (granted : Bool) (mask : Nat)
  | buzz (pattern : List Nat)
  | logEv (kind : Nat) (uidIndex : Int)
deriving DecidableEq, Repr

/-- CardEntry of the cloud variant: uid string plus permission mask. -/
structure CardEntry where
  uid : String
  mask : Nat
deriving DecidableEq, Repr

namespace Cloud

def MAX_CARDS : Nat := 64

def MODE_TIMEOUT_MS : Nat := 15000

/-- buzzer_add(): buzzOnce(120); buzzOnce(60). -/
def buzzerAdd : List Nat := [120, 60]

/-- buzzer_remove(): buzzOnce(60); buzzOnce(60). -/
def buzzerRemove : List Nat := [60, 60]

/-- buzzer_granted(): buzzOnce(200). -/
def buzzerGranted : List Nat := [200]

/-- buzzer_denied(): buzzOnce(60). -/
def buzzerDenied : List Nat := [60]

/-- buzzer_timeout3(): three beeps of 60 ms. -/
def buzzerTimeout3 : List Nat := [60, 60, 60]

/-- Global mutable state of the cloud sketch. -/
structure State where
  cards : List CardEntry
  statusStr : String
  addMode : Bool
  removeMode : Bool
  mark : Nat → Bool
  relayState : Nat → Bool
  relayOffAt : Nat → Nat
  modeStartMs : Nat

/-- Option-valued index of the first card whose uid matches; mirrors the
linear scan inside findCardIndex. -/
def findCardIdx? : List CardEntry → String → Option Nat
  | [], _ => none
  | c :: rest, uid => if c.uid = uid then some 0 else (findCardIdx? rest uid).map (· + 1)

/-- findCardIndex: first matching index, -1 when absent. -/
def findCardIndex (cards : List CardEntry) (uid : String) : Int :=
  match findCardIdx? cards uid with
  | some i => Int.ofNat i
  | none => -1

/-- currentMarkMask(): OR of bit i for every staged mark[i]. -/
def currentMarkMask (mark : Nat → Bool) : Nat :=
  (List.range 8).foldl (fun m i => if mark i then m ||| (1 <<< i) else m) 0

/-- In-place mask assignment cards[idx].mask = m. -/
def setMaskAt : List CardEntry → Nat → Nat → List CardEntry
  | [], _, _ => []
  | c :: rest, 0, m => { c with mask := m } :: rest
  | c :: rest, k + 1, m => c :: setMaskAt rest k m

/-- Observation: the mask stored for uid (cards[findCardIndex uid].mask). -/
def lookupMask : List CardEntry → String → Option Nat
  | [], _ => none
  | c :: rest, uid => if c.uid = uid then some c.mask else lookupMask rest uid

/-- setRelay(idx, b): bounds-checked write of the relay state. -/
def setRelay (s : State) (idx : Nat) (b : Bool) : State :=
  if 8 ≤ idx then s else { s with relayState := updAt s.relayState idx b }

/-- pulseRelayAutoOff(idx, ms): turn the relay on and arm its deadline. -/
def pulseRelayAutoOff (s : State) (idx now ms : Nat) : State :=
  { setRelay s idx true with relayOffAt := updAt s.relayOffAt idx (now + ms) }

/-- exitToNormal(fromTimeout): leave Add/Remove mode, clear every staged
mark and report it false, and beep three times on a timeout exit. -/
def exitToNormal (s : State) (fromTimeout : Bool) : State × List Event :=
  ({ s with addMode := false, removeMode := false, statusStr := "NORMAL",
            mark := (List.range 8).foldl (fun f i => updAt f i false) s.mark },
   Event.status "NORMAL" ::
     ((List.range 8).map (fun i => Event.reportMark i false) ++
      (if fromTimeout then [Event.buzz buzzerTimeout3] else [])))

/-- enterAddMode(). -/
def enterAddMode (s : State) (now : Nat) : State × List Event :=
  ({ s with addMode := true, removeMode := false, modeStartMs := now,
            statusStr := "ADD_MODE" },
   [Event.status "ADD_MODE"])

/-- enterRemoveMode(). -/
def enterRemoveMode (s : State) (now : Nat) : State × List Event :=
  ({ s with removeMode := true, addMode := false, modeStartMs := now,
            statusStr := "REMOVE_MODE" },
   [Event.status "REMOVE_MODE"])

/-- write_callback branch for the AddMode parameter. -/
def setAddMode (s : State) (v : Bool) (now : Nat) : State × List Event :=
  if v then enterAddMode s now else exitToNormal s false

/-- write_callback branch for the RemoveMode parameter. -/
def setRemoveMode (s : State) (v : Bool) (now : Nat) : State × List Event :=
  if v then enterRemoveMode s now else exitToNormal s false

/-- write_callback branch for a mark toggle. -/
def setMark (s : State) (i : Nat) (v : Bool) : State :=
  { s with mark := updAt s.mark i v }

/-- write_callback branch for a manual relay button: on requests are pulsed
with a 5000 ms deadline, off requests clear relay and deadline. -/
def setRelayParam (s : State) (i : Nat) (v : Bool) (now : Nat) : State :=
  if v then pulseRelayAutoOff s i now 5000
  else { setRelay s i false with relayOffAt := updAt s.relayOffAt i 0 }

/-- Auto-off sweep at the top of loop(): turn off every relay whose armed
deadline has elapsed. -/
def sweepAutoOff (s : State) (now : Nat) : State :=
  (List.range 8).foldl
    (fun st i =>
      if st.relayOffAt i ≠ 0 ∧ st.relayOffAt i ≤ now then
        { setRelay st i false with relayOffAt := updAt st.relayOffAt i 0 }
      else st) s

/-- Mode-timeout check of loop(): exit to Normal with the timeout beep when
a mode is active and MODE_TIMEOUT_MS has elapsed since it was entered. -/
def modeTimeout (s : State) (now : Nat) : State × List Event :=
  if (s.addMode = true ∨ s.removeMode = true) ∧ MODE_TIMEOUT_MS ≤ now - s.modeStartMs then
    exitToNormal s true
  else (s, [])

/-- One scan-free iteration of loop(): auto-off sweep then mode timeout. -/
def tick (s : State) (now : Nat) : State × List Event :=
  modeTimeout (sweepAutoOff s now) now

/-- The grant loop: pulse every relay whose bit is set in the mask. -/
def grantPulse (s : State) (m now : Nat) : State :=
  (List.range 8).foldl
    (fun st i => if m &&& (1 <<< i) ≠ 0 then pulseRelayAutoOff st i now 5000 else st) s

/-- The registry mutation of the AddMode scan branch: update the mask in
place when the uid is present, append when absent and below capacity,
silently skip otherwise. -/
def enrollUpdate (cards : List CardEntry) (uid : String) (m : Nat) : List CardEntry :=
  match findCardIdx? cards uid with
  | some k => setMaskAt cards k m
  | none =>
    if cards.length < MAX_CARDS then cards ++ [{ uid := uid, mask := m }] else cards

/-- The card-scan branch of loop(): enroll, unenroll or match-and-actuate
according to the current mode. -/
def onScan (s : State) (uid : String) (now : Nat) : State × List Event :=
  let idx := findCardIndex s.cards uid
  if s.addMode then
    let m := currentMarkMask s.mark
    let s1 := { s with cards := enrollUpdate s.cards uid m }
    let r := exitToNormal s1 false
    (r.1, [Event.lastAccess uid true m, Event.buzz buzzerAdd] ++ r.2)
  else if s.removeMode then
    if 0 ≤ idx then
      let s1 := { s with cards := s.cards.eraseIdx idx.toNat }
      let r := exitToNormal s1 false
      (r.1, [Event.lastAccess uid true 0, Event.buzz buzzerRemove] ++ r.2)
    else
      let r := exitToNormal s false
      (r.1, [Event.lastAccess uid false 0, Event.buzz buzzerDenied] ++ r.2)
  else
    if 0 ≤ idx ∧ (s.cards.getD idx.toNat { uid := "", mask := 0 }).mask ≠ 0 then
      (grantPulse s (s.cards.getD idx.toNat { uid := "", mask := 0 }).mask now,
       [Event.lastAccess uid true (s.cards.getD idx.toNat { uid := "", mask := 0 }).mask,
        Event.buzz buzzerGranted])
    else
      (s, [Event.lastAccess uid false 0, Event.buzz buzzerDenied])

/-- Model of the NVS Preferences namespace "rfid": the stored count plus the
uid / mask values keyed by slot number (a missing key reads back as the
default, "" or 0). -/
structure NVS where
  count : Nat
  uidStore : Nat → String
  maskStore : Nat → Nat

/-- saveCardsToNVS(): write the (possibly clamped) count and one uid / mask
pair per slot, then remove the stale keys of a previously larger count. -/
def saveCardsToNVS (nvs : NVS) (cards : List CardEntry) : NVS :=
  let prev := nvs.count
  let cnt := min cards.length MAX_CARDS
  { count := cnt,
    uidStore := fun i =>
      if i < cnt then (cards.getD i { uid := "", mask := 0 }).uid
      else if i < prev then "" else nvs.uidStore i,
    maskStore := fun i =>
      if i < cnt then (cards.getD i { uid := "", mask := 0 }).mask
      else if i < prev then 0 else nvs.maskStore i }

/-- loadCardsFromNVS(): rebuild the card vector from the stored slots,
skipping slots whose uid reads back empty. -/
def loadCardsFromNVS (nvs : NVS) : List CardEntry :=
  let cnt := min nvs.count MAX_CARDS
  (List.range cnt).foldl
    (fun acc i =>
      if (nvs.uidStore i).length ≠ 0 then
        acc ++ [{ uid := nvs.uidStore i, mask := nvs.maskStore i }]
      else acc) []

end Cloud

namespace Part0

/-- exitToNormal(fromTimeout) of src/unnamed/part_000: identical to the
cloud revision except that the staged marks are neither cleared nor
re-reported. -/
def exitToNormal (s : Cloud.State) (fromTimeout : Bool) : Cloud.State × List Event :=
  ({ s with addMode := false, removeMode := false, statusStr := "NORMAL" },
   Event.status "NORMAL" ::
     (if fromTimeout then [Event.buzz Cloud.buzzerTimeout3] else []))

end Part0

namespace V102

def CARD_START_ADDR : Nat := 1

def CARD_SLOT_BYTES : Nat := 16

def MAX_CARDS : Nat := 80

def RFID_MODE_TIMEOUT_MS : Nat := 30000

def RELAY9_AUTO_OFF_MS : Nat := 5000

/-- eepromWriteByte: EEPROM.write truncates the value to one byte. -/
def eepromWriteByte (e : Nat → Nat) (addr v : Nat) : Nat → Nat :=
  updAt e addr (v % 256)

/-- storeCardSlot(idx, uid): write the 16 slot bytes, padding with zeros past
the end of the uid (characters beyond byte 16 are dropped). -/
def storeCardSlot (e : Nat → Nat) (idx : Nat) (uid : List Nat) : Nat → Nat :=
  (List.range CARD_SLOT_BYTES).foldl
    (fun acc i =>
      eepromWriteByte acc (CARD_START_ADDR + idx * CARD_SLOT_BYTES + i)
        (if i < uid.length then uid.getD i 0 else 0)) e

/-- The byte-collecting loop of readCardSlot: stop at a zero byte or at the
end of the slot. -/
def readSlotGo (e : Nat → Nat) (addr : Nat) : Nat → List Nat
  | 0 => []
  | fuel + 1 => if e addr = 0 then [] else e addr :: readSlotGo e (addr + 1) fuel

/-- readCardSlot(idx). -/
def readCardSlot (e : Nat → Nat) (idx : Nat) : List Nat :=
  readSlotGo e (CARD_START_ADDR + idx * CARD_SLOT_BYTES) CARD_SLOT_BYTES

/-- getCardCount(): the count byte at address 0. -/
def getCardCount (e : Nat → Nat) : Nat := e 0

/-- setCardCount(c). -/
def setCardCount (e : Nat → Nat) (c : Nat) : Nat → Nat :=
  eepromWriteByte e 0 c

/-- The linear scan of findCardIndex, as the first matching slot index. -/
def findSlot? (e : Nat → Nat) (uid : List Nat) : Option Nat :=
  (List.range (getCardCount e)).find? (fun i => readCardSlot e i == uid)

/-- findCardIndex: -1 when no slot matches. -/
def findCardIndex (e : Nat → Nat) (uid : List Nat) : Int :=
  match findSlot? e uid with
  | some i => Int.ofNat i
  | none => -1

/-- addCard(uid): reject empty uids, return the existing index when present,
reject at capacity, otherwise store into the next slot and bump the count. -/
def addCard (e : Nat → Nat) (uid : List Nat) : (Nat → Nat) × Int :=
  if uid.length = 0 then (e, -1)
  else
    match findSlot? e uid with
    | some idx => (e, Int.ofNat idx)
    | none =>
      let cnt := getCardCount e
      if MAX_CARDS ≤ cnt then (e, -1)
      else (setCardCount (storeCardSlot e cnt uid) (cnt + 1), Int.ofNat cnt)

/-- removeCard(uid): shift the following slots down, zero the last slot and
decrement the count; false when the uid is absent. -/
def removeCard (e : Nat → Nat) (uid : List Nat) : (Nat → Nat) × Bool :=
  match findSlot? e uid with
  | some idx =>
    let cnt := getCardCount e
    let e1 := (List.range (cnt - 1 - idx)).foldl
      (fun acc k => storeCardSlot acc (idx + k) (readCardSlot acc (idx + k + 1))) e
    let lastBase := CARD_START_ADDR + (cnt - 1) * CARD_SLOT_BYTES
    let e2 := (List.range CARD_SLOT_BYTES).foldl
      (fun acc i => eepromWriteByte acc (lastBase + i) 0) e1
    (setCardCount e2 (cnt - 1), true)
  | none => (e, false)

/-- Global mutable state of RFID_V1.0.2.ino that the claims touch. -/
structure State where
  eeprom : Nat → Nat
  rfidAddMode : Bool
  rfidRemoveMode : Bool
  rfidModeExpireAt : Nat
  toggleState : Nat → Bool
  relay9_state : Bool
  relay9_on_at : Nat

/-- setRelay9(b): drive the RFID relay and persist its state at EEPROM
address 100 + 8. -/
def setRelay9 (s : State) (b : Bool) : State :=
  { s with relay9_state := b,
           eeprom := eepromWriteByte s.eeprom 108 (if b then 1 else 0) }

/-- write_callback Power branch for switch i: drive the relay, persist its
state at EEPROM address 100 + i and record the toggle; no deadline is armed. -/
def manualSetRelay (s : State) (i : Nat) (v : Bool) : State :=
  { s with eeprom := eepromWriteByte s.eeprom (100 + i) (if v then 1 else 0),
           toggleState := updAt s.toggleState i v }

/-- Mode-timeout check of loop(): strictly after rfidModeExpireAt both modes
are silently cleared - no buzzer, no log record. -/
def modeTimeout (s : State) (now : Nat) : State × List Event :=
  if (s.rfidAddMode = true ∨ s.rfidRemoveMode = true) ∧ s.rfidModeExpireAt < now then
    ({ s with rfidAddMode := false, rfidRemoveMode := false }, [])
  else (s, [])

/-- Relay-9 auto-off check of loop(). -/
def relay9AutoOff (s : State) (now : Nat) : State :=
  if s.relay9_state = true ∧ RELAY9_AUTO_OFF_MS < now - s.relay9_on_at then
    setRelay9 s false
  else s

/-- One scan-free iteration of loop(): mode timeout then relay-9 auto-off. -/
def tick (s : State) (now : Nat) : State × List Event :=
  let r := modeTimeout s now
  (relay9AutoOff r.1 now, r.2)

/-- processUID(uid): ignore empty uids entirely, otherwise enroll, remove or
match according to the current mode, emitting the log record and buzzer
pattern of the taken branch. -/
def processUID (s : State) (uid : List Nat) (now : Nat) : State × List Event :=
  if uid.length = 0 then (s, [])
  else if s.rfidAddMode then
    let r := addCard s.eeprom uid
    let ev := if 0 ≤ r.2 then [Event.logEv 3 r.2, Event.buzz (List.replicate 2 100)]
              else [Event.buzz (List.replicate 2 300)]
    ({ s with eeprom := r.1, rfidAddMode := false }, ev)
  else if s.rfidRemoveMode then
    let r := removeCard s.eeprom uid
    let ev := if r.2 then [Event.logEv 4 (-1), Event.buzz (List.replicate 2 100)]
              else [Event.buzz (List.replicate 2 300)]
    ({ s with eeprom := r.1, rfidRemoveMode := false }, ev)
  else
    match findSlot? s.eeprom uid with
    | some i =>
      ({ setRelay9 s true with relay9_on_at := now },
       [Event.logEv 1 (Int.ofNat i), Event.buzz (List.replicate 3 80)])
    | none => (s, [Event.logEv 2 (-1), Event.buzz (List.replicate 2 300)])

end V102

/- ===================== generic helper lemmas ===================== -/

theorem updAt_self {α : Type} (f : Nat → α) (i : Nat) (v : α) : updAt f i v i = v := by
  simp [updAt]

theorem updAt_ne {α : Type} (f : Nat → α) (i j : Nat) (v : α) (h : j ≠ i) :
    updAt f i v j = f j := by
  simp [updAt, h]

theorem foldl_preserve {α β : Type _} (P : α → Prop) (step : α → β → α)
    (h : ∀ a b, P a → P (step a b)) :
    ∀ (l : List β) (a : α), P a → P (l.foldl step a)
  | [], _, ha => ha
  | b :: l, a, ha => foldl_preserve P step h l (step a b) (h a b ha)

theorem range_foldl_updAt_const {α : Type} (v : α) :
    ∀ (n : Nat) (f : Nat → α) (j : Nat), j < n →
      ((List.range n).foldl (fun g i => updAt g i v) f) j = v := by
  intro n
  induction n with
  | zero => intro f j hj; omega
  | succ n ih =>
    intro f j hj
    rw [List.range_succ, List.foldl_append, List.foldl_cons, List.foldl_nil]
    by_cases hj' : j = n
    · subst hj'; exact updAt_self _ _ _
    · rw [updAt_ne _ _ _ _ hj']
      exact ih f j (by omega)

theorem eraseIdx_length_le {α : Type _} :
    ∀ (l : List α) (i : Nat), (l.eraseIdx i).length ≤ l.length
  | [], _ => Nat.le_refl _
  | _ :: l, 0 => Nat.le_succ _
  | a :: l, i + 1 => by
    simpa [List.eraseIdx] using Nat.succ_le_succ (eraseIdx_length_le l i)

theorem map_getD_range {α : Type _} (d : α) :
    ∀ (l : List α), (List.range l.length).map (fun i => l.getD i d) = l := by
  intro l
  induction l with
  | nil => rfl
  | cons a t ih =>
    show (List.range (t.length + 1)).map _ = _
    rw [List.range_succ_eq_map, List.map_cons, List.map_map]
    have h1 : ((fun i => (a :: t).getD i d) ∘ Nat.succ) = fun i => t.getD i d := by
      funext i; simp
    rw [h1, ih]
    simp

/- ===================== V102 EEPROM lemmas ===================== -/

namespace V102

theorem range_foldl_write_in (g : Nat → Nat) (base : Nat) :
    ∀ (n : Nat) (e : Nat → Nat) (j : Nat), j < n →
      ((List.range n).foldl (fun acc i => eepromWriteByte acc (base + i) (g i)) e) (base + j)
        = g j % 256 := by
  intro n
  induction n with
  | zero => intro e j hj; omega
  | succ n ih =>
    intro e j hj
    rw [List.range_succ, List.foldl_append, List.foldl_cons, List.foldl_nil]
    by_cases hj' : j = n
    · subst hj'
      exact updAt_self _ _ _
    · have hne : base + j ≠ base + n := by omega
      rw [eepromWriteByte, updAt_ne _ _ _ _ hne]
      exact ih e j (by omega)

theorem range_foldl_write_out (g : Nat → Nat) (base : Nat) :
    ∀ (n : Nat) (e : Nat → Nat) (a : Nat), (∀ j, j < n → a ≠ base + j) →
      ((List.range n).foldl (fun acc i => eepromWriteByte acc (base + i) (g i)) e) a = e a := by
  intro n
  induction n with
  | zero => intro e a _; rfl
  | succ n ih =>
    intro e a ha
    rw [List.range_succ, List.foldl_append, List.foldl_cons, List.foldl_nil]
    rw [eepromWriteByte, updAt_ne _ _ _ _ (ha n (by omega))]
    exact ih e a (fun j hj => ha j (by omega))

theorem readSlotGo_length_le (e : Nat → Nat) :
    ∀ (fuel addr : Nat), (readSlotGo e addr fuel).length ≤ fuel := by
  intro fuel
  induction fuel with
  | zero => intro addr; simp [readSlotGo]
  | succ n ih =>
    intro addr
    by_cases h : e addr = 0
    · simp [readSlotGo, h]
    · simpa [readSlotGo, h] using ih (addr + 1)

theorem readSlotGo_eq (e : Nat → Nat) :
    ∀ (l : List Nat) (addr : Nat), (∀ j, j < l.length → e (addr + j) = l.getD j 0) →
      (∀ b ∈ l, b ≠ 0) → readSlotGo e addr l.length = l := by
  intro l
  induction l with
  | nil => intro addr _ _; rfl
  | cons b t ih =>
    intro addr hbytes hnz
    have hb : e addr = b := by simpa using hbytes 0 (by simp)
    have hbne : b ≠ 0 := hnz b (List.mem_cons_self b t)
    show readSlotGo e addr (t.length + 1) = b :: t
    rw [readSlotGo, hb, if_neg hbne]
    refine congrArg (List.cons b) (ih (addr + 1) ?_ ?_)
    · intro j hj
      have h2 := hbytes (j + 1) (by simpa using Nat.succ_lt_succ hj)
      have h3 : addr + 1 + j = addr + (j + 1) := by omega
      rw [h3]
      simpa using h2
    · intro x hx
      exact hnz x (List.mem_cons_of_mem b hx)

theorem readCardSlot_length_le (e : Nat → Nat) (idx : Nat) :
    (readCardSlot e idx).length ≤ CARD_SLOT_BYTES :=
  readSlotGo_length_le e CARD_SLOT_BYTES _

/-- No slot can ever match an identifier longer than the slot width. -/
theorem findSlot?_long (e : Nat → Nat) (uid : List Nat)
    (h : CARD_SLOT_BYTES < uid.length) : findSlot? e uid = none := by
  rw [findSlot?, List.find?_eq_none]
  intro i _
  intro hbeq
  have heq : readCardSlot e i = uid := by simpa using hbeq
  have := readCardSlot_length_le e i
  rw [heq] at this
  omega

theorem findCardIndex_long (e : Nat → Nat) (uid : List Nat)
    (h : CARD_SLOT_BYTES < uid.length) : findCardIndex e uid = -1 := by
  rw [findCardIndex, findSlot?_long e uid h]

theorem modeTimeout_toggle (s : State) (now : Nat) :
    (modeTimeout s now).1.toggleState = s.toggleState := by
  rw [modeTimeout]
  split <;> rfl

theorem modeTimeout_modes_at_deadline (s : State) :
    modeTimeout s s.rfidModeExpireAt = (s, []) := by
  rw [modeTimeout, if_neg]
  intro h
  exact absurd h.2 (Nat.lt_irrefl _)

theorem relay9AutoOff_fields (s : State) (now : Nat) :
    (relay9AutoOff s now).toggleState = s.toggleState ∧
    (relay9AutoOff s now).rfidAddMode = s.rfidAddMode ∧
    (relay9AutoOff s now).rfidRemoveMode = s.rfidRemoveMode := by
  rw [relay9AutoOff]
  split <;> exact ⟨rfl, rfl, rfl⟩

theorem tick_toggle (s : State) (now : Nat) :
    (tick s now).1.toggleState = s.toggleState := by
  rw [tick]
  show (relay9AutoOff (modeTimeout s now).1 now).toggleState = _
  rw [(relay9AutoOff_fields _ now).1, modeTimeout_toggle]

end V102

/- ===================== Cloud helper lemmas ===================== -/

namespace Cloud

theorem setMaskAt_length : ∀ (cards : List CardEntry) (k m : Nat),
    (setMaskAt cards k m).length = cards.length
  | [], _, _ => rfl
  | _ :: _, 0, _ => rfl
  | c :: rest, k + 1, m => by simp [setMaskAt, setMaskAt_length rest k m]

theorem findCardIdx?_eq_none_iff (cards : List CardEntry) (uid : String) :
    findCardIdx? cards uid = none ↔ ∀ c ∈ cards, c.uid ≠ uid := by
  induction cards with
  | nil => simp [findCardIdx?]
  | cons c rest ih =>
    by_cases h : c.uid = uid
    · simp only [findCardIdx?, if_pos h]
      constructor
      · intro hcon; simp at hcon
      · intro hall; exact absurd h (hall c (List.mem_cons_self c rest))
    · simp only [findCardIdx?, if_neg h, Option.map_eq_none']
      rw [ih]
      constructor
      · intro hall x hx
        rcases List.mem_cons.mp hx with rfl | hx'
        · exact h
        · exact hall x hx'
      · intro hall x hx; exact hall x (List.mem_cons_of_mem c hx)

theorem findCardIdx?_some_lt : ∀ (cards : List CardEntry) (uid : String) (k : Nat),
    findCardIdx? cards uid = some k → k < cards.length := by
  intro cards
  induction cards with
  | nil => intro uid k h; simp [findCardIdx?] at h
  | cons c rest ih =>
    intro uid k h
    by_cases hc : c.uid = uid
    · simp only [findCardIdx?, if_pos hc, Option.some.injEq] at h
      simp [← h]
    · simp only [findCardIdx?, if_neg hc] at h
      rcases Option.map_eq_some'.mp h with ⟨k', hk', rfl⟩
      have := ih uid k' hk'
      simp
      omega

theorem findCardIdx?_getD_uid : ∀ (cards : List CardEntry) (uid : String) (k : Nat),
    findCardIdx? cards uid = some k →
      (cards.getD k { uid := "", mask := 0 }).uid = uid := by
  intro cards
  induction cards with
  | nil => intro uid k h; simp [findCardIdx?] at h
  | cons c rest ih =>
    intro uid k h
    by_cases hc : c.uid = uid
    · simp only [findCardIdx?, if_pos hc, Option.some.injEq] at h
      simp [← h, hc]
    · simp only [findCardIdx?, if_neg hc] at h
      rcases Option.map_eq_some'.mp h with ⟨k', hk', rfl⟩
      simpa using ih uid k' hk'

theorem findCardIdx?_setMaskAt : ∀ (cards : List CardEntry) (k m : Nat) (uid : String),
    findCardIdx? (setMaskAt cards k m) uid = findCardIdx? cards uid := by
  intro cards
  induction cards with
  | nil => intro k m uid; rfl
  | cons c rest ih =>
    intro k m uid
    cases k with
    | zero => simp [setMaskAt, findCardIdx?]
    | succ k => simp [setMaskAt, findCardIdx?, ih k m uid]

theorem lookupMask_setMaskAt : ∀ (cards : List CardEntry) (uid : String) (k m : Nat),
    findCardIdx? cards uid = some k →
      lookupMask (setMaskAt cards k m) uid = some m := by
  intro cards
  induction cards with
  | nil => intro uid k m h; simp [findCardIdx?] at h
  | cons c rest ih =>
    intro uid k m h
    by_cases hc : c.uid = uid
    · simp only [findCardIdx?, if_pos hc, Option.some.injEq] at h
      rw [← h]
      simp [setMaskAt, lookupMask, hc]
    · simp only [findCardIdx?, if_neg hc] at h
      rcases Option.map_eq_some'.mp h with ⟨k', hk', rfl⟩
      simp [setMaskAt, lookupMask, hc, ih uid k' m hk']

theorem lookupMask_append_self : ∀ (cards : List CardEntry) (uid : String) (m : Nat),
    (∀ c ∈ cards, c.uid ≠ uid) →
      lookupMask (cards ++ [{ uid := uid, mask := m }]) uid = some m := by
  intro cards
  induction cards with
  | nil => intro uid m _; simp [lookupMask]
  | cons c rest ih =>
    intro uid m hall
    have hc : c.uid ≠ uid := hall c (List.mem_cons_self c rest)
    simp only [List.cons_append, lookupMask, if_neg hc]
    exact ih uid m (fun x hx => hall x (List.mem_cons_of_mem c hx))

theorem findCardIdx?_append_none : ∀ (cards : List CardEntry) (uid : String) (m : Nat),
    (∀ c ∈ cards, c.uid ≠ uid) →
      findCardIdx? (cards ++ [{ uid := uid, mask := m }]) uid = some cards.length := by
  intro cards
  induction cards with
  | nil => intro uid m _; simp [findCardIdx?]
  | cons c rest ih =>
    intro uid m hall
    have hc : c.uid ≠ uid := hall c (List.mem_cons_self c rest)
    have hr := ih uid m (fun x hx => hall x (List.mem_cons_of_mem c hx))
    simp only [List.cons_append, findCardIdx?, if_neg hc]
    rw [show rest.append [{ uid := uid, mask := m }] = rest ++ [{ uid := uid, mask := m }] from rfl,
      hr]
    simp [List.length_cons]

theorem findCardIndex_of_some (cards : List CardEntry) (uid : String) (k : Nat)
    (h : findCardIdx? cards uid = some k) : findCardIndex cards uid = Int.ofNat k := by
  rw [findCardIndex, h]

theorem findCardIndex_of_none (cards : List CardEntry) (uid : String)
    (h : findCardIdx? cards uid = none) : findCardIndex cards uid = -1 := by
  rw [findCardIndex, h]

theorem pulse_relayOffAt (s : State) (i now ms j : Nat) :
    (pulseRelayAutoOff s i now ms).relayOffAt j
      = if j = i then now + ms else s.relayOffAt j := by
  simp [pulseRelayAutoOff, updAt]

theorem pulse_relayState (s : State) (i now ms : Nat) (hi : i < 8) (j : Nat) :
    (pulseRelayAutoOff s i now ms).relayState j
      = if j = i then true else s.relayState j := by
  have h8 : ¬ 8 ≤ i := by omega
  simp [pulseRelayAutoOff, setRelay, h8, updAt]

theorem pulse_cards (s : State) (i now ms : Nat) :
    (pulseRelayAutoOff s i now ms).cards = s.cards := by
  by_cases h8 : 8 ≤ i <;> simp [pulseRelayAutoOff, setRelay, h8]

theorem grantPulse_cards (s : State) (m now : Nat) :
    (grantPulse s m now).cards = s.cards := by
  rw [grantPulse]
  refine foldl_preserve (fun st => st.cards = s.cards) _ ?_ (List.range 8) s rfl
  intro st i hst
  by_cases hbit : m &&& (1 <<< i) ≠ 0
  · rw [if_pos hbit, pulse_cards]; exact hst
  · rw [if_neg hbit]; exact hst

theorem grantPulse_aux (m now : Nat) :
    ∀ (n : Nat), n ≤ 8 → ∀ (s : State) (j : Nat),
      (((List.range n).foldl
          (fun st i => if m &&& (1 <<< i) ≠ 0 then pulseRelayAutoOff st i now 5000 else st)
          s).relayState j
         = if j < n ∧ m &&& (1 <<< j) ≠ 0 then true else s.relayState j)
      ∧ (((List.range n).foldl
          (fun st i => if m &&& (1 <<< i) ≠ 0 then pulseRelayAutoOff st i now 5000 else st)
          s).relayOffAt j
         = if j < n ∧ m &&& (1 <<< j) ≠ 0 then now + 5000 else s.relayOffAt j) := by
  intro n
  induction n with
  | zero =>
    intro _ s j
    constructor <;> simp
  | succ n ih =>
    intro hn s j
    obtain ⟨ihs, iho⟩ := ih (by omega) s j
    rw [List.range_succ, List.foldl_append, List.foldl_cons, List.foldl_nil]
    constructor
    · by_cases hbit : m &&& (1 <<< n) ≠ 0
      · rw [if_pos hbit, pulse_relayState _ n now 5000 (by omega) j]
        by_cases hj : j = n
        · subst hj
          rw [if_pos rfl, if_pos ⟨by omega, hbit⟩]
        · have hiff : (j < n + 1) = (j < n) := propext (by constructor <;> intro <;> omega)
          rw [if_neg hj, ihs]
          simp only [hiff]
      · rw [if_neg hbit, ihs]
        by_cases hj : j = n
        · subst hj
          have hA : ¬(j < j ∧ m &&& (1 <<< j) ≠ 0) := fun h => absurd h.1 (by omega)
          have hB : ¬(j < j + 1 ∧ m &&& (1 <<< j) ≠ 0) := fun h => hbit h.2
          rw [if_neg hA, if_neg hB]
        · have hiff : (j < n + 1) = (j < n) := propext (by constructor <;> intro <;> omega)
          simp only [hiff]
    · by_cases hbit : m &&& (1 <<< n) ≠ 0
      · rw [if_pos hbit, pulse_relayOffAt]
        by_cases hj : j = n
        · subst hj
          rw [if_pos rfl, if_pos ⟨by omega, hbit⟩]
        · have hiff : (j < n + 1) = (j < n) := propext (by constructor <;> intro <;> omega)
          rw [if_neg hj, iho]
          simp only [hiff]
      · rw [if_neg hbit, iho]
        by_cases hj : j = n
        · subst hj
          have hA : ¬(j < j ∧ m &&& (1 <<< j) ≠ 0) := fun h => absurd h.1 (by omega)
          have hB : ¬(j < j + 1 ∧ m &&& (1 <<< j) ≠ 0) := fun h => hbit h.2
          rw [if_neg hA, if_neg hB]
        · have hiff : (j < n + 1) = (j < n) := propext (by constructor <;> intro <;> omega)
          simp only [hiff]

theorem grantPulse_relayState (s : State) (m now j : Nat) (hj : j < 8) :
    (grantPulse s m now).relayState j
      = if m &&& (1 <<< j) ≠ 0 then true else s.relayState j := by
  rw [grantPulse]
  rw [(grantPulse_aux m now 8 (by omega) s j).1]
  have hiff : (j < 8 ∧ m &&& (1 <<< j) ≠ 0) = (m &&& (1 <<< j) ≠ 0) :=
    propext (by constructor
                · intro h; exact h.2
                · intro h; exact ⟨hj, h⟩)
  simp only [hiff]

theorem grantPulse_relayOffAt (s : State) (m now j : Nat) (hj : j < 8) :
    (grantPulse s m now).relayOffAt j
      = if m &&& (1 <<< j) ≠ 0 then now + 5000 else s.relayOffAt j := by
  rw [grantPulse]
  rw [(grantPulse_aux m now 8 (by omega) s j).2]
  have hiff : (j < 8 ∧ m &&& (1 <<< j) ≠ 0) = (m &&& (1 <<< j) ≠ 0) :=
    propext (by constructor
                · intro h; exact h.2
                · intro h; exact ⟨hj, h⟩)
  simp only [hiff]

theorem sweep_aux (now : Nat) :
    ∀ (n : Nat), n ≤ 8 → ∀ (s : State) (j : Nat),
      (((List.range n).foldl
          (fun st i =>
            if st.relayOffAt i ≠ 0 ∧ st.relayOffAt i ≤ now then
              { setRelay st i false with relayOffAt := updAt st.relayOffAt i 0 }
            else st) s).relayOffAt j
         = if j < n ∧ s.relayOffAt j ≠ 0 ∧ s.relayOffAt j ≤ now then 0 else s.relayOffAt j)
      ∧ (((List.range n).foldl
          (fun st i =>
            if st.relayOffAt i ≠ 0 ∧ st.relayOffAt i ≤ now then
              { setRelay st i false with relayOffAt := updAt st.relayOffAt i 0 }
            else st) s).relayState j
         = if j < n ∧ s.relayOffAt j ≠ 0 ∧ s.relayOffAt j ≤ now then false else s.relayState j) := by
  intro n
  induction n with
  | zero =>
    intro _ s j
    constructor <;> simp
  | succ n ih =>
    intro hn s j
    rw [List.range_succ, List.foldl_append, List.foldl_cons, List.foldl_nil]
    have ihn := ih (by omega) s
    obtain ⟨iho, ihs⟩ := ihn j
    have hoffn := (ihn n).1
    rw [if_neg (fun h => absurd h.1 (Nat.lt_irrefl n))] at hoffn
    by_cases hc : s.relayOffAt n ≠ 0 ∧ s.relayOffAt n ≤ now
    · rw [if_pos (by rw [hoffn]; exact hc)]
      constructor
      · show updAt _ n 0 j = _
        by_cases hj : j = n
        · subst hj
          rw [updAt_self, if_pos ⟨by omega, hc⟩]
        · have hiff : (j < n + 1) = (j < n) := propext (by constructor <;> intro <;> omega)
          rw [updAt_ne _ _ _ _ hj, iho]
          simp only [hiff]
      · show (setRelay _ n false).relayState j = _
        rw [setRelay, if_neg (show ¬ 8 ≤ n by omega)]
        show updAt _ n false j = _
        by_cases hj : j = n
        · subst hj
          rw [updAt_self, if_pos ⟨by omega, hc⟩]
        · have hiff : (j < n + 1) = (j < n) := propext (by constructor <;> intro <;> omega)
          rw [updAt_ne _ _ _ _ hj, ihs]
          simp only [hiff]
    · rw [if_neg (by rw [hoffn]; exact hc)]
      rw [iho, ihs]
      have hiff : (j < n + 1 ∧ s.relayOffAt j ≠ 0 ∧ s.relayOffAt j ≤ now)
          = (j < n ∧ s.relayOffAt j ≠ 0 ∧ s.relayOffAt j ≤ now) := by
        apply propext
        constructor
        · intro h
          obtain ⟨h1, h2⟩ := h
          rcases Nat.lt_succ_iff_lt_or_eq.mp h1 with h1' | rfl
          · exact ⟨h1', h2⟩
          · exact absurd h2 hc
        · intro h
          obtain ⟨h1, h2⟩ := h
          exact ⟨by omega, h2⟩
      simp only [hiff]
      exact ⟨trivial, trivial⟩

theorem sweep_relayState (s : State) (now j : Nat) (hj : j < 8) :
    (sweepAutoOff s now).relayState j
      = if s.relayOffAt j ≠ 0 ∧ s.relayOffAt j ≤ now then false else s.relayState j := by
  rw [sweepAutoOff, (sweep_aux now 8 (by omega) s j).2]
  have hiff : (j < 8 ∧ s.relayOffAt j ≠ 0 ∧ s.relayOffAt j ≤ now)
      = (s.relayOffAt j ≠ 0 ∧ s.relayOffAt j ≤ now) :=
    propext (by constructor
                · intro h; exact h.2
                · intro h; exact ⟨hj, h⟩)
  simp only [hiff]

theorem sweep_modes (s : State) (now : Nat) :
    (sweepAutoOff s now).addMode = s.addMode ∧ (sweepAutoOff s now).removeMode = s.removeMode ∧
    (sweepAutoOff s now).modeStartMs = s.modeStartMs ∧ (sweepAutoOff s now).mark = s.mark ∧
    (sweepAutoOff s now).cards = s.cards := by
  rw [sweepAutoOff]
  refine foldl_preserve
    (fun st => st.addMode = s.addMode ∧ st.removeMode = s.removeMode ∧
      st.modeStartMs = s.modeStartMs ∧ st.mark = s.mark ∧ st.cards = s.cards)
    _ ?_ (List.range 8) s ⟨rfl, rfl, rfl, rfl, rfl⟩
  intro st i hst
  obtain ⟨h1, h2, h3, h4, h5⟩ := hst
  by_cases hc : st.relayOffAt i ≠ 0 ∧ st.relayOffAt i ≤ now
  · rw [if_pos hc]
    by_cases h8 : 8 ≤ i <;> simp [setRelay, h8, h1, h2, h3, h4, h5]
  · rw [if_neg hc]
    exact ⟨h1, h2, h3, h4, h5⟩

theorem exitToNormal_mark (s : State) (ft : Bool) (i : Nat) (hi : i < 8) :
    (exitToNormal s ft).1.mark i = false := by
  show ((List.range 8).foldl (fun f i => updAt f i false) s.mark) i = false
  exact range_foldl_updAt_const false 8 s.mark i hi

theorem exitToNormal_events (s : State) (ft : Bool) :
    (exitToNormal s ft).2
      = Event.status "NORMAL" ::
          ((List.range 8).map (fun i => Event.reportMark i false) ++
           (if ft then [Event.buzz buzzerTimeout3] else [])) := rfl

theorem grantPulse_modes (s : State) (m now : Nat) :
    (grantPulse s m now).addMode = s.addMode ∧
    (grantPulse s m now).removeMode = s.removeMode ∧
    (grantPulse s m now).mark = s.mark := by
  rw [grantPulse]
  refine foldl_preserve
    (fun st => st.addMode = s.addMode ∧ st.removeMode = s.removeMode ∧ st.mark = s.mark)
    _ ?_ (List.range 8) s ⟨rfl, rfl, rfl⟩
  intro st i hst
  obtain ⟨h1, h2, h3⟩ := hst
  by_cases hbit : m &&& (1 <<< i) ≠ 0
  · rw [if_pos hbit]
    by_cases h8 : 8 ≤ i <;> simp [pulseRelayAutoOff, setRelay, h8, h1, h2, h3]
  · rw [if_neg hbit]
    exact ⟨h1, h2, h3⟩

theorem fold_filter_append (u : Nat → String) (w : Nat → Nat) :
    ∀ (n : Nat) (acc : List CardEntry), (∀ i, i < n → (u i).length ≠ 0) →
      (List.range n).foldl
        (fun acc i =>
          if (u i).length ≠ 0 then acc ++ [{ uid := u i, mask := w i }] else acc) acc
      = acc ++ (List.range n).map (fun i => { uid := u i, mask := w i }) := by
  intro n
  induction n with
  | zero => intro acc _; simp
  | succ n ih =>
    intro acc h
    rw [List.range_succ, List.foldl_append, List.foldl_cons, List.foldl_nil,
      ih acc (fun i hi => h i (by omega)), List.map_append, List.map_cons, List.map_nil]
    rw [if_pos (h n (by omega))]
    rw [List.append_assoc]

end Cloud

theorem getD_take {α : Type _} :
    ∀ (l : List α) (n j : Nat) (d : α), j < n → (l.take n).getD j d = l.getD j d := by
  intro l
  induction l with
  | nil => intro n j d _; simp
  | cons a t ih =>
    intro n j d hj
    cases n with
    | zero => omega
    | succ n =>
      cases j with
      | zero => simp
      | succ j => simpa using ih n j d (by omega)

/- ===================== capacity / enrollment helper lemmas ===================== -/

theorem getD_mem {α : Type _} :
    ∀ (l : List α) (i : Nat) (d : α), i < l.length → l.getD i d ∈ l := by
  intro l
  induction l with
  | nil => intro i d h; simp at h
  | cons a t ih =>
    intro i d h
    cases i with
    | zero => simp
    | succ i =>
      have := ih i d (by simpa using h)
      simp only [List.getD_cons_succ]
      exact List.mem_cons_of_mem a this

theorem addCard_count_le (e : Nat → Nat) (uid : List Nat)
    (h : V102.getCardCount e ≤ V102.MAX_CARDS) :
    V102.getCardCount (V102.addCard e uid).1 ≤ V102.MAX_CARDS := by
  by_cases h0 : uid.length = 0
  · simp only [V102.addCard, if_pos h0]
    exact h
  · cases hf : V102.findSlot? e uid with
    | some idx =>
      simp only [V102.addCard, if_neg h0, hf]
      exact h
    | none =>
      by_cases hcap : V102.MAX_CARDS ≤ V102.getCardCount e
      · simp only [V102.addCard, if_neg h0, hf, if_pos hcap]
        exact h
      · simp only [V102.addCard, if_neg h0, hf, if_neg hcap]
        have hcnt : V102.getCardCount
            (V102.setCardCount (V102.storeCardSlot e (V102.getCardCount e) uid)
              (V102.getCardCount e + 1)) = (V102.getCardCount e + 1) % 256 := by
          simp [V102.getCardCount, V102.setCardCount, V102.eepromWriteByte, updAt]
        rw [hcnt]
        have h1 := Nat.mod_le (V102.getCardCount e + 1) 256
        simp only [V102.MAX_CARDS] at hcap ⊢
        omega

theorem addCard_at_capacity (e : Nat → Nat) (uid : List Nat)
    (hc : V102.getCardCount e = V102.MAX_CARDS) (habs : V102.findSlot? e uid = none) :
    V102.addCard e uid = (e, -1) := by
  by_cases h0 : uid.length = 0
  · simp only [V102.addCard, if_pos h0]
  · simp only [V102.addCard, if_neg h0, habs]
    rw [if_pos hc.ge]

theorem enrollUpdate_some (cards : List CardEntry) (uid : String) (m k : Nat)
    (hf : Cloud.findCardIdx? cards uid = some k) :
    Cloud.enrollUpdate cards uid m = Cloud.setMaskAt cards k m := by
  simp only [Cloud.enrollUpdate, hf]

theorem enrollUpdate_none_lt (cards : List CardEntry) (uid : String) (m : Nat)
    (hf : Cloud.findCardIdx? cards uid = none) (hlt : cards.length < Cloud.MAX_CARDS) :
    Cloud.enrollUpdate cards uid m = cards ++ [{ uid := uid, mask := m }] := by
  simp only [Cloud.enrollUpdate, hf]
  rw [if_pos hlt]

theorem enrollUpdate_none_ge (cards : List CardEntry) (uid : String) (m : Nat)
    (hf : Cloud.findCardIdx? cards uid = none) (hge : ¬ cards.length < Cloud.MAX_CARDS) :
    Cloud.enrollUpdate cards uid m = cards := by
  simp only [Cloud.enrollUpdate, hf]
  rw [if_neg hge]

theorem enrollUpdate_length_le (cards : List CardEntry) (uid : String) (m : Nat)
    (h : cards.length ≤ Cloud.MAX_CARDS) :
    (Cloud.enrollUpdate cards uid m).length ≤ Cloud.MAX_CARDS := by
  cases hf : Cloud.findCardIdx? cards uid with
  | some k =>
    rw [enrollUpdate_some cards uid m k hf, Cloud.setMaskAt_length]
    exact h
  | none =>
    by_cases hlt : cards.length < Cloud.MAX_CARDS
    · rw [enrollUpdate_none_lt cards uid m hf hlt]
      simp only [List.length_append, List.length_cons, List.length_nil]
      omega
    · rw [enrollUpdate_none_ge cards uid m hf hlt]
      exact h

theorem onScan_cards_le (s : Cloud.State) (uid : String) (now : Nat)
    (h : s.cards.length ≤ Cloud.MAX_CARDS) :
    (Cloud.onScan s uid now).1.cards.length ≤ Cloud.MAX_CARDS := by
  by_cases hA : s.addMode = true
  · simp only [Cloud.onScan, hA, eq_self_iff_true, if_true]
    show (Cloud.enrollUpdate s.cards uid (Cloud.currentMarkMask s.mark)).length ≤ _
    exact enrollUpdate_length_le _ _ _ h
  · have hA0 : s.addMode = false := by revert hA; cases s.addMode <;> simp
    by_cases hR : s.removeMode = true
    · simp only [Cloud.onScan, hA0, hR, Bool.false_eq_true, if_false,
        eq_self_iff_true, if_true]
      by_cases hidx : 0 ≤ Cloud.findCardIndex s.cards uid
      · rw [if_pos hidx]
        show (s.cards.eraseIdx (Cloud.findCardIndex s.cards uid).toNat).length ≤ _
        exact le_trans (eraseIdx_length_le _ _) h
      · rw [if_neg hidx]
        exact h
    · have hR0 : s.removeMode = false := by revert hR; cases s.removeMode <;> simp
      simp only [Cloud.onScan, hA0, hR0, Bool.false_eq_true, if_false]
      by_cases hcond : 0 ≤ Cloud.findCardIndex s.cards uid
          ∧ (s.cards.getD (Cloud.findCardIndex s.cards uid).toNat
              { uid := "", mask := 0 }).mask ≠ 0
      · rw [if_pos hcond]
        show (Cloud.grantPulse s
          (s.cards.getD (Cloud.findCardIndex s.cards uid).toNat
            { uid := "", mask := 0 }).mask now).cards.length ≤ _
        rw [Cloud.grantPulse_cards]
        exact h
      · rw [if_neg hcond]
        exact h

theorem onScan_at_capacity (s : Cloud.State) (uid : String) (now : Nat)
    (hfull : s.cards.length = Cloud.MAX_CARDS)
    (habs : Cloud.findCardIdx? s.cards uid = none) :
    (Cloud.onScan s uid now).1.cards = s.cards := by
  have hidx : Cloud.findCardIndex s.cards uid = -1 := Cloud.findCardIndex_of_none _ _ habs
  have hnl : ¬ s.cards.length < Cloud.MAX_CARDS := by
    rw [hfull]
    exact Nat.lt_irrefl _
  have hneg : ¬ (0 : Int) ≤ -1 := by decide
  by_cases hA : s.addMode = true
  · simp only [Cloud.onScan, hA, eq_self_iff_true, if_true]
    show Cloud.enrollUpdate s.cards uid (Cloud.currentMarkMask s.mark) = s.cards
    exact enrollUpdate_none_ge _ _ _ habs hnl
  · have hA0 : s.addMode = false := by revert hA; cases s.addMode <;> simp
    by_cases hR : s.removeMode = true
    · simp only [Cloud.onScan, hA0, hR, Bool.false_eq_true, if_false,
        eq_self_iff_true, if_true]
      rw [if_neg (by rw [hidx]; exact hneg)]
      rfl
    · have hR0 : s.removeMode = false := by revert hR; cases s.removeMode <;> simp
      simp only [Cloud.onScan, hA0, hR0, Bool.false_eq_true, if_false]
      rw [if_neg (by rw [hidx]; intro hcon; exact hneg hcon.1)]

/- ===================== concrete scenario states ===================== -/

/-- A quiescent cloud state: empty registry, Normal mode, everything off. -/
def cloudIdle : Cloud.State :=
  { cards := [], statusStr := "NORMAL", addMode := false, removeMode := false,
    mark := fun _ => false, relayState := fun _ => false, relayOffAt := fun _ => 0,
    modeStartMs := 0 }

/-- A registry filled to capacity with 64 distinct identifiers. -/
def cardsFull : List CardEntry :=
  (List.range Cloud.MAX_CARDS).map (fun i => { uid := Nat.repr i, mask := 1 })

/-- An idle V102 state: empty card DB, Normal mode, relays off. -/
def v102Idle : V102.State :=
  { eeprom := fun _ => 0, rfidAddMode := false, rfidRemoveMode := false,
    rfidModeExpireAt := 0, toggleState := fun _ => false, relay9_state := false,
    relay9_on_at := 0 }

/-- An empty NVS store. -/
def nvs0 : Cloud.NVS := { count := 0, uidStore := fun _ => "", maskStore := fun _ => 0 }

/-- 65 distinct (identifier, mask) pairs - one more than MAX_CARDS. -/
def cards65 : List CardEntry :=
  (List.range 65).map (fun i => { uid := Nat.repr i, mask := 1 })

/-- An EEPROM image whose count byte reads 80 (capacity of the V102 DB). -/
def e80 : Nat → Nat := fun a => if a = 0 then 80 else 0

/-- An EEPROM image holding one card, the single byte 65, in slot 0. -/
def e1 : Nat → Nat := fun a => if a = 0 then 1 else if a = 1 then 65 else 0

/- ===================== claims ===================== -/

/-- C2: in Normal mode, a scan of an identifier found in the registry with a
non-zero mask m pulses exactly the channels of the set bits of m, each with
the auto-off deadline now + 5000 ms, records a Granted outcome carrying the
mask snapshot, and leaves the registry unchanged; a scan of an identifier
that is absent, or present with a zero mask, leaves the whole state
unchanged (zero channels activated) and records a Denied outcome. -/
theorem c2_normal_scan (s : Cloud.State) (uid : String) (now : Nat)
    (hA : s.addMode = false) (hR : s.removeMode = false) :
    (∀ k m, Cloud.findCardIdx? s.cards uid = some k →
      (s.cards.getD k { uid := "", mask := 0 }).mask = m → m ≠ 0 →
      (Cloud.onScan s uid now).1.cards = s.cards
      ∧ (∀ j, j < 8 → (Cloud.onScan s uid now).1.relayState j
            = (if m &&& (1 <<< j) ≠ 0 then true else s.relayState j))
      ∧ (∀ j, j < 8 → (Cloud.onScan s uid now).1.relayOffAt j
            = (if m &&& (1 <<< j) ≠ 0 then now + 5000 else s.relayOffAt j))
      ∧ (Cloud.onScan s uid now).2
          = [Event.lastAccess uid true m, Event.buzz Cloud.buzzerGranted])
    ∧ ((Cloud.findCardIdx? s.cards uid = none
        ∨ ∃ k, Cloud.findCardIdx? s.cards uid = some k
            ∧ (s.cards.getD k { uid := "", mask := 0 }).mask = 0) →
      Cloud.onScan s uid now
        = (s, [Event.lastAccess uid false 0, Event.buzz Cloud.buzzerDenied])) := by
  constructor
  · intro k m hfk hmask hm0
    have hidx : Cloud.findCardIndex s.cards uid = Int.ofNat k :=
      Cloud.findCardIndex_of_some _ _ _ hfk
    have hcond : 0 ≤ Cloud.findCardIndex s.cards uid
        ∧ (s.cards.getD (Cloud.findCardIndex s.cards uid).toNat
            { uid := "", mask := 0 }).mask ≠ 0 := by
      rw [hidx]
      refine ⟨Int.natCast_nonneg k, ?_⟩
      have htn : (Int.ofNat k).toNat = k := rfl
      rw [htn, hmask]
      exact hm0
    simp only [Cloud.onScan, hA, hR, Bool.false_eq_true, if_false]
    have htn : (Int.ofNat k).toNat = k := rfl
    rw [if_pos hcond, hidx, htn, hmask]
    refine ⟨Cloud.grantPulse_cards s m now, ?_, ?_, rfl⟩
    · intro j hj
      exact Cloud.grantPulse_relayState s m now j hj
    · intro j hj
      exact Cloud.grantPulse_relayOffAt s m now j hj
  · intro hden
    have hcond : ¬(0 ≤ Cloud.findCardIndex s.cards uid
        ∧ (s.cards.getD (Cloud.findCardIndex s.cards uid).toNat
            { uid := "", mask := 0 }).mask ≠ 0) := by
      rcases hden with hnone | ⟨k, hfk, hzero⟩
      · rw [Cloud.findCardIndex_of_none _ _ hnone]
        intro h
        omega
      · rw [Cloud.findCardIndex_of_some _ _ _ hfk]
        intro h
        apply h.2
        have htn : (Int.ofNat k).toNat = k := rfl
        rw [htn, hzero]
    simp only [Cloud.onScan, hA, hR, Bool.false_eq_true, if_false]
    rw [if_neg hcond]

/-- C2 witness: the grant scenario of the spec - registry holding
04A1B2C3 with mask 3, Normal mode; scanning 04A1B2C3 at time 0 turns
channels 0 and 1 on with deadline 5000 and records Granted with mask 3. -/
theorem c2_normal_scan_w :
    (Cloud.onScan { cloudIdle with cards := [{ uid := "04A1B2C3", mask := 3 }] }
        "04A1B2C3" 0).1.cards = [{ uid := "04A1B2C3", mask := 3 }]
    ∧ (∀ j, j < 8 →
        (Cloud.onScan { cloudIdle with cards := [{ uid := "04A1B2C3", mask := 3 }] }
          "04A1B2C3" 0).1.relayState j
          = (if 3 &&& (1 <<< j) ≠ 0 then true
             else ({ cloudIdle with
                      cards := [{ uid := "04A1B2C3", mask := 3 }] } : Cloud.State).relayState j))
    ∧ (∀ j, j < 8 →
        (Cloud.onScan { cloudIdle with cards := [{ uid := "04A1B2C3", mask := 3 }] }
          "04A1B2C3" 0).1.relayOffAt j
          = (if 3 &&& (1 <<< j) ≠ 0 then 0 + 5000
             else ({ cloudIdle with
                      cards := [{ uid := "04A1B2C3", mask := 3 }] } : Cloud.State).relayOffAt j))
    ∧ (Cloud.onScan { cloudIdle with cards := [{ uid := "04A1B2C3", mask := 3 }] }
        "04A1B2C3" 0).2
        = [Event.lastAccess "04A1B2C3" true 3, Event.buzz Cloud.buzzerGranted] := by
  have h := (c2_normal_scan
    { cloudIdle with cards := [{ uid := "04A1B2C3", mask := 3 }] }
    "04A1B2C3" 0 rfl rfl).1 0 3 (by decide) (by decide) (by decide)
  exact h

/-- C9 (amended): the EEPROM variant ignores a zero-length scan entirely -
no registry mutation, no log record, no channel actuation, no feedback; the
cloud variant has no emptiness guard: in Normal mode an empty identifier
that is not enrolled is processed as a regular denied scan, with a
LastAccess report and denial feedback. -/
theorem c9_empty_scan :
    (∀ (s : V102.State) (now : Nat), V102.processUID s [] now = (s, []))
    ∧ (∀ (s : Cloud.State) (now : Nat), s.addMode = false → s.removeMode = false →
        Cloud.findCardIdx? s.cards "" = none →
        Cloud.onScan s "" now
          = (s, [Event.lastAccess "" false 0, Event.buzz Cloud.buzzerDenied])) := by
  constructor
  · intro s now
    rfl
  · intro s now hA hR hnone
    have hcond : ¬(0 ≤ Cloud.findCardIndex s.cards ""
        ∧ (s.cards.getD (Cloud.findCardIndex s.cards "").toNat
            { uid := "", mask := 0 }).mask ≠ 0) := by
      rw [Cloud.findCardIndex_of_none _ _ hnone]
      intro h
      omega
    simp only [Cloud.onScan, hA, hR, Bool.false_eq_true, if_false]
    rw [if_neg hcond]

/-- C9 counterexample: in the cloud variant a zero-length scan is not
ignored - in Normal mode with an empty registry it emits a Denied
LastAccess report and the denial beep, and in AddMode it even enrolls the
empty identifier, mutating the registry. -/
theorem c9_empty_scan_cex :
    (Cloud.onScan cloudIdle "" 0).2
      = [Event.lastAccess "" false 0, Event.buzz Cloud.buzzerDenied]
    ∧ (Cloud.onScan { cloudIdle with addMode := true } "" 0).1.cards
      = [{ uid := "", mask := 0 }] := by
  constructor
  · decide
  · decide

/-- C3 (amended): in the cloud variant, with Enroll or Unenroll active and no
qualifying scan, the first tick at or after enteredAt + MODE_TIMEOUT_MS
reverts the mode to Normal and emits exactly one three-beep timeout alert,
whose pattern differs from the add, remove, granted and denied patterns;
earlier ticks change neither the mode nor emit events, and once back in
Normal further ticks emit nothing.  In the EEPROM variant the tick at
exactly rfidModeExpireAt = enteredAt + TIMEOUT does nothing (the comparison
is strict), and the strictly later reversion is silent: no event at all. -/
theorem c3_timeout :
    (∀ (s : Cloud.State) (now : Nat), (s.addMode = true ∨ s.removeMode = true) →
      s.modeStartMs + Cloud.MODE_TIMEOUT_MS ≤ now →
      (Cloud.tick s now).1.addMode = false ∧ (Cloud.tick s now).1.removeMode = false
      ∧ (Cloud.tick s now).2.count (Event.buzz Cloud.buzzerTimeout3) = 1)
    ∧ (∀ (s : Cloud.State) (now : Nat), now < s.modeStartMs + Cloud.MODE_TIMEOUT_MS →
      (Cloud.tick s now).1.addMode = s.addMode
      ∧ (Cloud.tick s now).1.removeMode = s.removeMode
      ∧ (Cloud.tick s now).2 = [])
    ∧ (∀ (s : Cloud.State) (now : Nat), s.addMode = false → s.removeMode = false →
      (Cloud.tick s now).2 = [])
    ∧ (Cloud.buzzerTimeout3 ≠ Cloud.buzzerGranted ∧ Cloud.buzzerTimeout3 ≠ Cloud.buzzerDenied
      ∧ Cloud.buzzerTimeout3 ≠ Cloud.buzzerAdd ∧ Cloud.buzzerTimeout3 ≠ Cloud.buzzerRemove)
    ∧ (∀ (s : V102.State),
      (V102.tick s s.rfidModeExpireAt).1.rfidAddMode = s.rfidAddMode
      ∧ (V102.tick s s.rfidModeExpireAt).1.rfidRemoveMode = s.rfidRemoveMode
      ∧ (V102.tick s s.rfidModeExpireAt).2 = [])
    ∧ (∀ (s : V102.State) (now : Nat), s.rfidModeExpireAt < now →
      (V102.tick s now).1.rfidAddMode = false ∧ (V102.tick s now).1.rfidRemoveMode = false
      ∧ (V102.tick s now).2 = []) := by
  refine ⟨?_, ?_, ?_, by decide, ?_, ?_⟩
  · intro s now hmode hle
    rw [Cloud.tick]
    obtain ⟨hA, hR, hS, hM, hC⟩ := Cloud.sweep_modes s now
    have hcond : ((Cloud.sweepAutoOff s now).addMode = true
          ∨ (Cloud.sweepAutoOff s now).removeMode = true)
        ∧ Cloud.MODE_TIMEOUT_MS ≤ now - (Cloud.sweepAutoOff s now).modeStartMs := by
      refine ⟨?_, ?_⟩
      · rw [hA, hR]; exact hmode
      · rw [hS]
        simp only [Cloud.MODE_TIMEOUT_MS] at hle ⊢
        omega
    rw [Cloud.modeTimeout, if_pos hcond]
    refine ⟨rfl, rfl, ?_⟩
    rw [Cloud.exitToNormal_events]
    decide
  · intro s now hlt
    rw [Cloud.tick]
    obtain ⟨hA, hR, hS, hM, hC⟩ := Cloud.sweep_modes s now
    have hcond : ¬(((Cloud.sweepAutoOff s now).addMode = true
          ∨ (Cloud.sweepAutoOff s now).removeMode = true)
        ∧ Cloud.MODE_TIMEOUT_MS ≤ now - (Cloud.sweepAutoOff s now).modeStartMs) := by
      intro h
      have h2 := h.2
      rw [hS] at h2
      simp only [Cloud.MODE_TIMEOUT_MS] at h2 hlt
      omega
    rw [Cloud.modeTimeout, if_neg hcond]
    exact ⟨hA, hR, rfl⟩
  · intro s now hA0 hR0
    rw [Cloud.tick]
    obtain ⟨hA, hR, hS, hM, hC⟩ := Cloud.sweep_modes s now
    have hcond : ¬(((Cloud.sweepAutoOff s now).addMode = true
          ∨ (Cloud.sweepAutoOff s now).removeMode = true)
        ∧ Cloud.MODE_TIMEOUT_MS ≤ now - (Cloud.sweepAutoOff s now).modeStartMs) := by
      intro h
      rcases h.1 with h1 | h1
      · rw [hA, hA0] at h1; cases h1
      · rw [hR, hR0] at h1; cases h1
    rw [Cloud.modeTimeout, if_neg hcond]
  · intro s
    rw [V102.tick, V102.modeTimeout_modes_at_deadline]
    exact ⟨(V102.relay9AutoOff_fields s _).2.1, (V102.relay9AutoOff_fields s _).2.2, rfl⟩
  · intro s now hlt
    rw [V102.tick]
    by_cases hmode : s.rfidAddMode = true ∨ s.rfidRemoveMode = true
    · rw [V102.modeTimeout, if_pos ⟨hmode, hlt⟩]
      refine ⟨?_, ?_, rfl⟩
      · exact ((V102.relay9AutoOff_fields _ now).2.1).trans rfl
      · exact ((V102.relay9AutoOff_fields _ now).2.2).trans rfl
    · rw [V102.modeTimeout, if_neg (fun h => hmode h.1)]
      have hp := not_or.mp hmode
      have hA0 : s.rfidAddMode = false := by
        have := hp.1
        revert this
        cases s.rfidAddMode <;> simp
      have hR0 : s.rfidRemoveMode = false := by
        have := hp.2
        revert this
        cases s.rfidRemoveMode <;> simp
      refine ⟨?_, ?_, rfl⟩
      · exact ((V102.relay9AutoOff_fields _ now).2.1).trans hA0
      · exact ((V102.relay9AutoOff_fields _ now).2.2).trans hR0

/-- C3 counterexample: in RFID_V1.0.2.ino a mode entered at time 0 expires
at rfidModeExpireAt = 30000, but the tick at exactly enteredAt + TIMEOUT
= 30000 does not revert to Normal (the source compares millis() strictly
greater), and even the strictly later reversion emits no TimeoutReverted
event and no beep - it is completely silent, unlike the claimed
distinguished three-beep alert. -/
theorem c3_timeout_cex :
    (V102.tick { v102Idle with rfidAddMode := true, rfidModeExpireAt := 30000 }
        30000).1.rfidAddMode = true
    ∧ (V102.tick { v102Idle with rfidAddMode := true, rfidModeExpireAt := 30000 }
        30000).2 = []
    ∧ (V102.tick { v102Idle with rfidAddMode := true, rfidModeExpireAt := 30000 }
        30001).1.rfidAddMode = false
    ∧ (V102.tick { v102Idle with rfidAddMode := true, rfidModeExpireAt := 30000 }
        30001).2 = [] := by
  refine ⟨?_, ?_, ?_, ?_⟩ <;> decide

/-- C3 witness: the cloud timeout scenario at concrete inputs - the tick at
enteredAt + 15000 reverts and beeps exactly once, the tick just before does
nothing; and the silent V102 reversion strictly after expiry. -/
theorem c3_timeout_w :
    ((Cloud.tick { cloudIdle with addMode := true } 15000).1.addMode = false
      ∧ (Cloud.tick { cloudIdle with addMode := true } 15000).1.removeMode = false
      ∧ (Cloud.tick { cloudIdle with addMode := true } 15000).2.count
          (Event.buzz Cloud.buzzerTimeout3) = 1)
    ∧ ((Cloud.tick { cloudIdle with addMode := true } 14999).1.addMode
          = ({ cloudIdle with addMode := true } : Cloud.State).addMode
      ∧ (Cloud.tick { cloudIdle with addMode := true } 14999).1.removeMode
          = ({ cloudIdle with addMode := true } : Cloud.State).removeMode
      ∧ (Cloud.tick { cloudIdle with addMode := true } 14999).2 = [])
    ∧ ((V102.tick { v102Idle with rfidAddMode := true, rfidModeExpireAt := 30000 }
          30001).1.rfidAddMode = false
      ∧ (V102.tick { v102Idle with rfidAddMode := true, rfidModeExpireAt := 30000 }
          30001).1.rfidRemoveMode = false
      ∧ (V102.tick { v102Idle with rfidAddMode := true, rfidModeExpireAt := 30000 }
          30001).2 = []) :=
  ⟨c3_timeout.1 { cloudIdle with addMode := true } 15000 (Or.inl rfl) (by decide),
   c3_timeout.2.1 { cloudIdle with addMode := true } 14999 (by decide),
   c3_timeout.2.2.2.2.2 { v102Idle with rfidAddMode := true, rfidModeExpireAt := 30000 }
     30001 (by decide)⟩

/-- C4 (amended): in RFID_Controller_Version_cloud.ino every transition to
Normal - explicit disable of either mode, terminal scan in Enroll or
Unenroll mode, and timeout expiry - goes through exitToNormal, which clears
all eight staged marks and reports each of them false; in the part_000
revision exitToNormal leaves the staged marks untouched. -/
theorem c4_marks_cleared :
    (∀ (s : Cloud.State) (ft : Bool) (i : Nat), i < 8 →
      (Cloud.exitToNormal s ft).1.mark i = false)
    ∧ (∀ (s : Cloud.State) (ft : Bool) (i : Nat), i < 8 →
        Event.reportMark i false ∈ (Cloud.exitToNormal s ft).2)
    ∧ (∀ (s : Cloud.State) (now : Nat) (i : Nat), i < 8 →
        (Cloud.setAddMode s false now).1.mark i = false
        ∧ (Cloud.setRemoveMode s false now).1.mark i = false)
    ∧ (∀ (s : Cloud.State) (uid : String) (now : Nat) (i : Nat), i < 8 →
        (s.addMode = true ∨ s.removeMode = true) →
        (Cloud.onScan s uid now).1.mark i = false)
    ∧ (∀ (s : Cloud.State) (now : Nat) (i : Nat), i < 8 →
        s.modeStartMs + Cloud.MODE_TIMEOUT_MS ≤ now →
        (s.addMode = true ∨ s.removeMode = true) →
        (Cloud.tick s now).1.mark i = false)
    ∧ (∀ (s : Cloud.State) (ft : Bool), (Part0.exitToNormal s ft).1.mark = s.mark) := by
  refine ⟨?_, ?_, ?_, ?_, ?_, ?_⟩
  · intro s ft i hi
    exact Cloud.exitToNormal_mark s ft i hi
  · intro s ft i hi
    rw [Cloud.exitToNormal_events]
    apply List.mem_cons_of_mem
    apply List.mem_append_left
    exact List.mem_map.mpr ⟨i, List.mem_range.mpr hi, rfl⟩
  · intro s now i hi
    exact ⟨Cloud.exitToNormal_mark s false i hi, Cloud.exitToNormal_mark s false i hi⟩
  · intro s uid now i hi hmode
    by_cases hA : s.addMode = true
    · simp only [Cloud.onScan, hA, eq_self_iff_true, if_true]
      exact Cloud.exitToNormal_mark _ false i hi
    · have hR : s.removeMode = true := by
        rcases hmode with h | h
        · exact absurd h hA
        · exact h
      have hA0 : s.addMode = false := by
        revert hA
        cases s.addMode <;> simp
      simp only [Cloud.onScan, hA0, hR, Bool.false_eq_true, if_false,
        eq_self_iff_true, if_true]
      by_cases hidx : 0 ≤ Cloud.findCardIndex s.cards uid
      · rw [if_pos hidx]
        exact Cloud.exitToNormal_mark _ false i hi
      · rw [if_neg hidx]
        exact Cloud.exitToNormal_mark _ false i hi
  · intro s now i hi hle hmode
    rw [Cloud.tick]
    obtain ⟨hA, hR, hS, hM, hC⟩ := Cloud.sweep_modes s now
    have hcond : ((Cloud.sweepAutoOff s now).addMode = true
          ∨ (Cloud.sweepAutoOff s now).removeMode = true)
        ∧ Cloud.MODE_TIMEOUT_MS ≤ now - (Cloud.sweepAutoOff s now).modeStartMs := by
      refine ⟨?_, ?_⟩
      · rw [hA, hR]; exact hmode
      · rw [hS]
        simp only [Cloud.MODE_TIMEOUT_MS] at hle ⊢
        omega
    rw [Cloud.modeTimeout, if_pos hcond]
    exact Cloud.exitToNormal_mark _ true i hi
  · intro s ft
    rfl

/-- C4 counterexample: in part_000, a staged mark survives the transition to
Normal - exitToNormal returns to Normal but mark 2 is still set, and no
per-mark false report is emitted. -/
theorem c4_marks_cleared_cex :
    ({ cloudIdle with addMode := true, mark := updAt cloudIdle.mark 2 true } :
        Cloud.State).mark 2 = true
    ∧ (Part0.exitToNormal
        { cloudIdle with addMode := true, mark := updAt cloudIdle.mark 2 true }
        false).1.addMode = false
    ∧ (Part0.exitToNormal
        { cloudIdle with addMode := true, mark := updAt cloudIdle.mark 2 true }
        false).1.statusStr = "NORMAL"
    ∧ (Part0.exitToNormal
        { cloudIdle with addMode := true, mark := updAt cloudIdle.mark 2 true }
        false).1.mark 2 = true
    ∧ (Part0.exitToNormal
        { cloudIdle with addMode := true, mark := updAt cloudIdle.mark 2 true }
        false).2 = [Event.status "NORMAL"] := by
  refine ⟨?_, ?_, ?_, ?_, ?_⟩ <;> decide

/-- C4 witness: cleared marks after a cloud exit and after a terminal scan,
and the untouched mark map of a part_000 exit, at concrete inputs. -/
theorem c4_marks_cleared_w :
    (Cloud.exitToNormal cloudIdle true).1.mark 3 = false
    ∧ (Cloud.onScan { cloudIdle with addMode := true } "AB" 0).1.mark 2 = false
    ∧ (Part0.exitToNormal { cloudIdle with addMode := true } false).1.mark
        = ({ cloudIdle with addMode := true } : Cloud.State).mark :=
  ⟨c4_marks_cleared.1 cloudIdle true 3 (by decide),
   c4_marks_cleared.2.2.2.1 { cloudIdle with addMode := true } "AB" 0 2 (by decide)
     (Or.inl rfl),
   c4_marks_cleared.2.2.2.2.2 { cloudIdle with addMode := true } false⟩

/-- C5 (amended): in the EEPROM variant (RFID_V1.0.2.ino) the Power toggle
of a switch arms no deadline and the loop auto-off only touches relay 9, so
a manually switched-on channel stays on across every subsequent tick until
an explicit off request.  In the cloud variant the manual relay button is
implemented as pulseRelayAutoOff(i, 5000): the turn-on request, although it
carries no timer of its own, is armed with a 5000 ms deadline and the
auto-off sweep does switch the channel off once the deadline elapses. -/
theorem c5_manual_relay :
    (∀ (s : V102.State) (i : Nat) (v : Bool),
      (V102.manualSetRelay s i v).toggleState i = v)
    ∧ (∀ (s : V102.State) (now : Nat), (V102.tick s now).1.toggleState = s.toggleState)
    ∧ (∀ (s : V102.State) (nows : List Nat),
        (nows.foldl (fun st t => (V102.tick st t).1) s).toggleState = s.toggleState)
    ∧ (∀ (s : Cloud.State) (i now : Nat), i < 8 →
        (Cloud.setRelayParam s i true now).relayState i = true
        ∧ (Cloud.setRelayParam s i true now).relayOffAt i = now + 5000)
    ∧ (∀ (s : Cloud.State) (i now : Nat), i < 8 → s.relayOffAt i ≠ 0 →
        s.relayOffAt i ≤ now → (Cloud.sweepAutoOff s now).relayState i = false) := by
  refine ⟨?_, ?_, ?_, ?_, ?_⟩
  · intro s i v
    exact updAt_self _ _ _
  · intro s now
    exact V102.tick_toggle s now
  · intro s nows
    exact foldl_preserve (fun st => st.toggleState = s.toggleState)
      _ (fun st t hst => (V102.tick_toggle st t).trans hst) nows s rfl
  · intro s i now hi
    constructor
    · show (Cloud.pulseRelayAutoOff s i now 5000).relayState i = true
      rw [Cloud.pulse_relayState s i now 5000 hi, if_pos rfl]
    · show (Cloud.pulseRelayAutoOff s i now 5000).relayOffAt i = now + 5000
      rw [Cloud.pulse_relayOffAt, if_pos rfl]
  · intro s i now hi hne hle
    rw [Cloud.sweep_relayState s now i hi, if_pos ⟨hne, hle⟩]

/-- C5 counterexample: in the cloud variant a channel switched on through
the direct external toggle (which passes no timer) is armed with deadline
5000 and the sweep at tick 5000 turns it off although no off request was
ever issued - contradicting the claim that it stays on. -/
theorem c5_manual_relay_cex :
    (Cloud.setRelayParam cloudIdle 0 true 0).relayState 0 = true
    ∧ (Cloud.setRelayParam cloudIdle 0 true 0).relayOffAt 0 = 5000
    ∧ (Cloud.sweepAutoOff (Cloud.setRelayParam cloudIdle 0 true 0) 5000).relayState 0
        = false := by
  refine ⟨?_, ?_, ?_⟩ <;> decide

/-- C5 witness: the amended behavior at concrete inputs. -/
theorem c5_manual_relay_w :
    ((Cloud.setRelayParam cloudIdle 1 true 7).relayState 1 = true
      ∧ (Cloud.setRelayParam cloudIdle 1 true 7).relayOffAt 1 = 7 + 5000)
    ∧ (Cloud.sweepAutoOff (Cloud.setRelayParam cloudIdle 1 true 7) 5007).relayState 1
        = false
    ∧ (V102.tick { v102Idle with toggleState := updAt v102Idle.toggleState 2 true }
        99999).1.toggleState
        = ({ v102Idle with toggleState := updAt v102Idle.toggleState 2 true } :
            V102.State).toggleState :=
  ⟨c5_manual_relay.2.2.2.1 cloudIdle 1 7 (by decide),
   c5_manual_relay.2.2.2.2 (Cloud.setRelayParam cloudIdle 1 true 7) 1 5007 (by decide)
     (by decide) (by decide),
   c5_manual_relay.2.1 { v102Idle with toggleState := updAt v102Idle.toggleState 2 true }
     99999⟩

/-- C9 witness: both amended behaviors at concrete inputs. -/
theorem c9_empty_scan_w :
    V102.processUID v102Idle [] 7 = (v102Idle, [])
    ∧ Cloud.onScan cloudIdle "" 3
        = (cloudIdle, [Event.lastAccess "" false 0, Event.buzz Cloud.buzzerDenied]) :=
  ⟨c9_empty_scan.1 v102Idle 7, c9_empty_scan.2 cloudIdle 3 rfl rfl (by decide)⟩

/-- C1 (amended): for every sequence of enrolls the registry size never
exceeds MAX_CARDS (80 in the EEPROM variant, 64 in the cloud variant), and
an enroll of a distinct (absent) identifier arriving at capacity leaves the
registry unchanged.  The EEPROM variant signals the rejection by returning
-1 from addCard; the cloud variant silently skips the insert (no
RegistryFull outcome is surfaced there - see the counterexample). -/
theorem c1_capacity :
    (∀ (uids : List (List Nat)) (e : Nat → Nat),
      V102.getCardCount e ≤ V102.MAX_CARDS →
      V102.getCardCount (uids.foldl (fun acc u => (V102.addCard acc u).1) e)
        ≤ V102.MAX_CARDS)
    ∧ (∀ (e : Nat → Nat) (uid : List Nat), V102.getCardCount e = V102.MAX_CARDS →
        V102.findSlot? e uid = none → V102.addCard e uid = (e, -1))
    ∧ (∀ (s : Cloud.State) (uid : String) (now : Nat),
        s.cards.length ≤ Cloud.MAX_CARDS →
        (Cloud.onScan s uid now).1.cards.length ≤ Cloud.MAX_CARDS)
    ∧ (∀ (s : Cloud.State) (uid : String) (now : Nat),
        s.cards.length = Cloud.MAX_CARDS → Cloud.findCardIdx? s.cards uid = none →
        (Cloud.onScan s uid now).1.cards = s.cards) := by
  refine ⟨?_, ?_, ?_, ?_⟩
  · intro uids e h
    exact foldl_preserve (fun e => V102.getCardCount e ≤ V102.MAX_CARDS)
      _ (fun e u he => addCard_count_le e u he) uids e h
  · intro e uid hc habs
    exact addCard_at_capacity e uid hc habs
  · intro s uid now h
    exact onScan_cards_le s uid now h
  · intro s uid now hfull habs
    exact onScan_at_capacity s uid now hfull habs

/-- C1 counterexample: in the cloud variant, enrolling a 65th distinct
identifier into a full registry leaves the registry unchanged but is NOT
rejected with any RegistryFull outcome: the firmware reports the very same
events as a successful enrollment - a LastAccess record flagged granted and
the add-success beep - and no denial event. -/
theorem c1_capacity_cex :
    cardsFull.length = Cloud.MAX_CARDS
    ∧ Cloud.findCardIdx? cardsFull "FFFF" = none
    ∧ (Cloud.onScan { cloudIdle with cards := cardsFull, addMode := true }
        "FFFF" 0).1.cards = cardsFull
    ∧ Event.lastAccess "FFFF" true 0
        ∈ (Cloud.onScan { cloudIdle with cards := cardsFull, addMode := true } "FFFF" 0).2
    ∧ Event.buzz Cloud.buzzerAdd
        ∈ (Cloud.onScan { cloudIdle with cards := cardsFull, addMode := true } "FFFF" 0).2
    ∧ ∀ ev ∈ (Cloud.onScan { cloudIdle with cards := cardsFull, addMode := true }
        "FFFF" 0).2,
        ev ≠ Event.lastAccess "FFFF" false 0 ∧ ev ≠ Event.buzz Cloud.buzzerDenied := by
  refine ⟨?_, ?_, ?_, ?_, ?_, ?_⟩ <;> decide

/-- C1 witness: the amended claim at concrete inputs - a sequence of three
enrolls stays within capacity, the full EEPROM DB rejects a fresh
identifier with -1 unchanged, and the full cloud registry is left unchanged
by an enroll scan. -/
theorem c1_capacity_w :
    V102.getCardCount
      (([[65], [66], [65]] : List (List Nat)).foldl
        (fun acc u => (V102.addCard acc u).1) (fun _ => 0)) ≤ V102.MAX_CARDS
    ∧ V102.addCard e80 [70] = (e80, -1)
    ∧ (Cloud.onScan cloudIdle "AB" 0).1.cards.length ≤ Cloud.MAX_CARDS
    ∧ (Cloud.onScan { cloudIdle with cards := cardsFull, addMode := true }
        "FFFF" 0).1.cards = cardsFull :=
  ⟨c1_capacity.1 [[65], [66], [65]] (fun _ => 0) (by decide),
   c1_capacity.2.1 e80 [70] rfl (by decide),
   c1_capacity.2.2.1 cloudIdle "AB" 0 (by decide),
   c1_capacity.2.2.2 { cloudIdle with cards := cardsFull, addMode := true } "FFFF" 0
     (by decide) (by decide)⟩

/-- C6: enrolling an identifier that is already present updates that card's
mask in place to the supplied mask and leaves the registry size unchanged;
enrolling the same identifier twice with the same mask (with room for the
first enroll) leaves the size unchanged and the stored mask equal to the
supplied value; in the EEPROM variant addCard of a present identifier
returns its index and leaves the store untouched. -/
theorem c6_enroll_idempotent :
    (∀ (cards : List CardEntry) (uid : String) (m k : Nat),
      Cloud.findCardIdx? cards uid = some k →
      (Cloud.enrollUpdate cards uid m).length = cards.length
      ∧ Cloud.lookupMask (Cloud.enrollUpdate cards uid m) uid = some m)
    ∧ (∀ (cards : List CardEntry) (uid : String) (m : Nat),
        cards.length < Cloud.MAX_CARDS →
        (Cloud.enrollUpdate (Cloud.enrollUpdate cards uid m) uid m).length
          = (Cloud.enrollUpdate cards uid m).length
        ∧ Cloud.lookupMask
            (Cloud.enrollUpdate (Cloud.enrollUpdate cards uid m) uid m) uid = some m)
    ∧ (∀ (e : Nat → Nat) (uid : List Nat) (k : Nat), uid.length ≠ 0 →
        V102.findSlot? e uid = some k → V102.addCard e uid = (e, Int.ofNat k)) := by
  refine ⟨?_, ?_, ?_⟩
  · intro cards uid m k hf
    rw [enrollUpdate_some cards uid m k hf]
    exact ⟨Cloud.setMaskAt_length cards k m, Cloud.lookupMask_setMaskAt cards uid k m hf⟩
  · intro cards uid m hlt
    cases hf : Cloud.findCardIdx? cards uid with
    | some k =>
      rw [enrollUpdate_some cards uid m k hf]
      have hf2 : Cloud.findCardIdx? (Cloud.setMaskAt cards k m) uid = some k := by
        rw [Cloud.findCardIdx?_setMaskAt]
        exact hf
      rw [enrollUpdate_some _ uid m k hf2]
      exact ⟨Cloud.setMaskAt_length _ k m,
        Cloud.lookupMask_setMaskAt _ uid k m hf2⟩
    | none =>
      have hall : ∀ c ∈ cards, c.uid ≠ uid :=
        (Cloud.findCardIdx?_eq_none_iff cards uid).mp hf
      rw [enrollUpdate_none_lt cards uid m hf hlt]
      have hf2 : Cloud.findCardIdx? (cards ++ [{ uid := uid, mask := m }]) uid
          = some cards.length := Cloud.findCardIdx?_append_none cards uid m hall
      rw [enrollUpdate_some _ uid m cards.length hf2]
      exact ⟨Cloud.setMaskAt_length _ cards.length m,
        Cloud.lookupMask_setMaskAt _ uid cards.length m hf2⟩
  · intro e uid k h0 hf
    simp only [V102.addCard, if_neg h0, hf]

/-- C6 witness: re-enrolling 04A1B2C3 with mask 5 keeps size 1 and stores
mask 5; enrolling 11223344 twice into an empty registry keeps one entry
with the supplied mask; and addCard of the stored single-byte card returns
index 0 without modifying the EEPROM. -/
theorem c6_enroll_idempotent_w :
    ((Cloud.enrollUpdate [{ uid := "04A1B2C3", mask := 3 }] "04A1B2C3" 5).length
        = ([{ uid := "04A1B2C3", mask := 3 }] : List CardEntry).length
      ∧ Cloud.lookupMask (Cloud.enrollUpdate [{ uid := "04A1B2C3", mask := 3 }]
          "04A1B2C3" 5) "04A1B2C3" = some 5)
    ∧ ((Cloud.enrollUpdate (Cloud.enrollUpdate [] "11223344" 4) "11223344" 4).length
        = (Cloud.enrollUpdate [] "11223344" 4).length
      ∧ Cloud.lookupMask (Cloud.enrollUpdate (Cloud.enrollUpdate [] "11223344" 4)
          "11223344" 4) "11223344" = some 4)
    ∧ V102.addCard e1 [65] = (e1, Int.ofNat 0) :=
  ⟨c6_enroll_idempotent.1 [{ uid := "04A1B2C3", mask := 3 }] "04A1B2C3" 5 0 (by decide),
   c6_enroll_idempotent.2.1 [] "11223344" 4 (by decide),
   c6_enroll_idempotent.2.2 e1 [65] 0 (by decide) (by decide)⟩

/-- PendingMark exclusivity predicate: at most one of Enroll/Unenroll
active. -/
def exclusive (s : Cloud.State) : Prop := ¬(s.addMode = true ∧ s.removeMode = true)

/-- C7 (amended): at most one of Enroll and Unenroll is ever active - every
mode entry point establishes exclusivity and every operation preserves it -
and requesting Unenroll while Enroll is active supersedes it silently (the
emitted events hold no buzz, in particular no timeout alert); however the
staged marks are NOT cleared by the supersession: they are preserved
verbatim, and are only cleared on the next transition to Normal. -/
theorem c7_mode_exclusive :
    (∀ (s : Cloud.State) (now : Nat),
      exclusive (Cloud.enterAddMode s now).1 ∧ exclusive (Cloud.enterRemoveMode s now).1)
    ∧ (∀ (s : Cloud.State) (ft : Bool), exclusive (Cloud.exitToNormal s ft).1)
    ∧ (∀ (s : Cloud.State) (uid : String) (now : Nat), exclusive s →
        exclusive (Cloud.onScan s uid now).1)
    ∧ (∀ (s : Cloud.State) (now : Nat), exclusive s → exclusive (Cloud.tick s now).1)
    ∧ (∀ (s : Cloud.State) (t1 t2 : Nat),
        (Cloud.enterRemoveMode (Cloud.enterAddMode s t1).1 t2).1.removeMode = true
        ∧ (Cloud.enterRemoveMode (Cloud.enterAddMode s t1).1 t2).1.addMode = false
        ∧ (Cloud.enterRemoveMode (Cloud.enterAddMode s t1).1 t2).1.mark = s.mark
        ∧ (Cloud.enterRemoveMode (Cloud.enterAddMode s t1).1 t2).2
            = [Event.status "REMOVE_MODE"]) := by
  refine ⟨?_, ?_, ?_, ?_, ?_⟩
  · intro s now
    constructor
    · intro h
      exact Bool.false_ne_true h.2
    · intro h
      exact Bool.false_ne_true h.1
  · intro s ft h
    exact Bool.false_ne_true h.1
  · intro s uid now hs
    by_cases hA : s.addMode = true
    · simp only [Cloud.onScan, hA, eq_self_iff_true, if_true]
      intro h
      exact Bool.false_ne_true h.2
    · have hA0 : s.addMode = false := by revert hA; cases s.addMode <;> simp
      by_cases hR : s.removeMode = true
      · simp only [Cloud.onScan, hA0, hR, Bool.false_eq_true, if_false,
          eq_self_iff_true, if_true]
        by_cases hidx : 0 ≤ Cloud.findCardIndex s.cards uid
        · rw [if_pos hidx]
          intro h
          exact Bool.false_ne_true h.2
        · rw [if_neg hidx]
          intro h
          exact Bool.false_ne_true h.2
      · have hR0 : s.removeMode = false := by revert hR; cases s.removeMode <;> simp
        simp only [Cloud.onScan, hA0, hR0, Bool.false_eq_true, if_false]
        by_cases hcond : 0 ≤ Cloud.findCardIndex s.cards uid
            ∧ (s.cards.getD (Cloud.findCardIndex s.cards uid).toNat
                { uid := "", mask := 0 }).mask ≠ 0
        · rw [if_pos hcond]
          intro h
          obtain ⟨hga, hgr, _⟩ := Cloud.grantPulse_modes s
            (s.cards.getD (Cloud.findCardIndex s.cards uid).toNat
              { uid := "", mask := 0 }).mask now
          exact hs ⟨hga.symm.trans h.1, hgr.symm.trans h.2⟩
        · rw [if_neg hcond]
          exact hs
  · intro s now hs
    rw [Cloud.tick]
    obtain ⟨hA, hR, hS, hM, hC⟩ := Cloud.sweep_modes s now
    rw [Cloud.modeTimeout]
    by_cases hcond : ((Cloud.sweepAutoOff s now).addMode = true
          ∨ (Cloud.sweepAutoOff s now).removeMode = true)
        ∧ Cloud.MODE_TIMEOUT_MS ≤ now - (Cloud.sweepAutoOff s now).modeStartMs
    · rw [if_pos hcond]
      intro h
      exact Bool.false_ne_true h.1
    · rw [if_neg hcond]
      intro h
      exact hs ⟨hA.symm.trans h.1, hR.symm.trans h.2⟩
  · intro s t1 t2
    exact ⟨rfl, rfl, rfl, rfl⟩

/-- C7 counterexample: requestMode(Enroll), staging mark 2, then
requestMode(Unenroll) leaves mode = Unenroll but the Enroll-only staged
mark 2 is still set - the supersession does not clear the pending marks. -/
theorem c7_mode_exclusive_cex :
    (Cloud.enterRemoveMode
        (Cloud.setMark (Cloud.enterAddMode cloudIdle 0).1 2 true) 5).1.removeMode = true
    ∧ (Cloud.enterRemoveMode
        (Cloud.setMark (Cloud.enterAddMode cloudIdle 0).1 2 true) 5).1.addMode = false
    ∧ (Cloud.enterRemoveMode
        (Cloud.setMark (Cloud.enterAddMode cloudIdle 0).1 2 true) 5).1.mark 2 = true := by
  refine ⟨?_, ?_, ?_⟩ <;> decide

/-- C7 witness: exclusivity and silent supersession at concrete inputs. -/
theorem c7_mode_exclusive_w :
    (exclusive (Cloud.enterAddMode cloudIdle 0).1
      ∧ exclusive (Cloud.enterRemoveMode cloudIdle 0).1)
    ∧ exclusive (Cloud.onScan cloudIdle "AB" 0).1
    ∧ ((Cloud.enterRemoveMode (Cloud.enterAddMode cloudIdle 0).1 5).1.removeMode = true
      ∧ (Cloud.enterRemoveMode (Cloud.enterAddMode cloudIdle 0).1 5).1.addMode = false
      ∧ (Cloud.enterRemoveMode (Cloud.enterAddMode cloudIdle 0).1 5).1.mark = cloudIdle.mark
      ∧ (Cloud.enterRemoveMode (Cloud.enterAddMode cloudIdle 0).1 5).2
          = [Event.status "REMOVE_MODE"]) :=
  ⟨c7_mode_exclusive.1 cloudIdle 0,
   c7_mode_exclusive.2.2.1 cloudIdle "AB" 0 (by intro h; exact Bool.false_ne_true h.1),
   c7_mode_exclusive.2.2.2.2 cloudIdle 0 5⟩

/-- C8 (amended): persisting a registry of at most MAX_CARDS (64) cards
whose identifiers are non-empty and then reloading it from the NVS yields
exactly the same sequence of (identifier, mask) pairs - hence the same set,
independent of order; a pair with an empty identifier is dropped on reload,
and beyond 64 pairs the save truncates to the first 64. -/
theorem c8_round_trip (nvs : Cloud.NVS) (cards : List CardEntry)
    (hlen : cards.length ≤ Cloud.MAX_CARDS)
    (hne : ∀ c ∈ cards, c.uid.length ≠ 0) :
    Cloud.loadCardsFromNVS (Cloud.saveCardsToNVS nvs cards) = cards := by
  have hmin : min cards.length Cloud.MAX_CARDS = cards.length := min_eq_left hlen
  have hcount : (Cloud.saveCardsToNVS nvs cards).count = cards.length := by
    simp only [Cloud.saveCardsToNVS]
    exact hmin
  have huid : ∀ i, i < cards.length →
      (Cloud.saveCardsToNVS nvs cards).uidStore i
        = (cards.getD i { uid := "", mask := 0 }).uid := by
    intro i hi
    simp only [Cloud.saveCardsToNVS]
    rw [if_pos (by rw [hmin]; exact hi)]
  have hmask : ∀ i, i < cards.length →
      (Cloud.saveCardsToNVS nvs cards).maskStore i
        = (cards.getD i { uid := "", mask := 0 }).mask := by
    intro i hi
    simp only [Cloud.saveCardsToNVS]
    rw [if_pos (by rw [hmin]; exact hi)]
  have hne2 : ∀ i, i < cards.length →
      ((Cloud.saveCardsToNVS nvs cards).uidStore i).length ≠ 0 := by
    intro i hi
    rw [huid i hi]
    exact hne _ (getD_mem cards i _ hi)
  simp only [Cloud.loadCardsFromNVS]
  rw [hcount, hmin]
  rw [Cloud.fold_filter_append ((Cloud.saveCardsToNVS nvs cards).uidStore)
    ((Cloud.saveCardsToNVS nvs cards).maskStore) cards.length [] hne2]
  rw [List.nil_append]
  have hmap : ∀ i ∈ List.range cards.length,
      ({ uid := (Cloud.saveCardsToNVS nvs cards).uidStore i,
         mask := (Cloud.saveCardsToNVS nvs cards).maskStore i } : CardEntry)
        = cards.getD i { uid := "", mask := 0 } := by
    intro i hi
    have hi2 := List.mem_range.mp hi
    rw [huid i hi2, hmask i hi2]
  rw [List.map_congr_left hmap]
  exact map_getD_range { uid := "", mask := 0 } cards

/-- C8 counterexample: the claim quantifies over every collection of K
distinct pairs, but the round trip is not the identity on all of them - a
single pair with an empty identifier is silently dropped on reload, and 65
distinct pairs are truncated to the first 64 by the save (the cloud variant
can actually reach such an empty-identifier card, see the C9 result). -/
theorem c8_round_trip_cex :
    Cloud.loadCardsFromNVS (Cloud.saveCardsToNVS nvs0 [{ uid := "", mask := 5 }]) = []
    ∧ (Cloud.loadCardsFromNVS (Cloud.saveCardsToNVS nvs0 cards65)).length = 64
    ∧ cards65.length = 65
    ∧ (cards65.map (fun c => c.uid)).Nodup := by
  refine ⟨?_, ?_, ?_, ?_⟩ <;> decide

/-- C8 witness: a two-card registry survives the save / load round trip
unchanged. -/
theorem c8_round_trip_w :
    Cloud.loadCardsFromNVS (Cloud.saveCardsToNVS nvs0
      [{ uid := "04A1B2C3", mask := 3 }, { uid := "DEADBEEF", mask := 1 }])
      = [{ uid := "04A1B2C3", mask := 3 }, { uid := "DEADBEEF", mask := 1 }] :=
  c8_round_trip nvs0
    [{ uid := "04A1B2C3", mask := 3 }, { uid := "DEADBEEF", mask := 1 }]
    (by decide) (by decide)

/-- C10: in the fixed-slot EEPROM variant a card slot stores at most
CARD_SLOT_BYTES = 16 characters: for an identifier longer than 16
characters (with the non-zero byte values a hex identifier always has) a
successful addCard consumes a slot (the count grows by one and the slot
holds exactly the first 16 characters), yet findCardIndex with the full
identifier returns -1 in the resulting store - so the card can never be
matched, removed (removeCard returns false and changes nothing) or
granted. -/
theorem c10_slot_truncation (e : Nat → Nat) (uid : List Nat)
    (hlong : V102.CARD_SLOT_BYTES < uid.length)
    (hbytes : ∀ b ∈ uid, 0 < b ∧ b < 256)
    (hcap : V102.getCardCount e < V102.MAX_CARDS) :
    (V102.addCard e uid).2 = Int.ofNat (V102.getCardCount e)
    ∧ V102.getCardCount (V102.addCard e uid).1 = V102.getCardCount e + 1
    ∧ V102.readCardSlot (V102.addCard e uid).1 (V102.getCardCount e)
        = uid.take V102.CARD_SLOT_BYTES
    ∧ V102.findCardIndex (V102.addCard e uid).1 uid = -1
    ∧ V102.removeCard (V102.addCard e uid).1 uid = ((V102.addCard e uid).1, false) := by
  have hsl : V102.CARD_SLOT_BYTES = 16 := rfl
  have hlong16 : 16 < uid.length := by rw [hsl] at hlong; exact hlong
  have h0 : ¬ uid.length = 0 := by omega
  have habs : V102.findSlot? e uid = none := V102.findSlot?_long e uid hlong
  have hnc : ¬ V102.MAX_CARDS ≤ V102.getCardCount e := not_le.mpr hcap
  have hred : V102.addCard e uid
      = (V102.setCardCount (V102.storeCardSlot e (V102.getCardCount e) uid)
          (V102.getCardCount e + 1), Int.ofNat (V102.getCardCount e)) := by
    simp only [V102.addCard, if_neg h0, habs, if_neg hnc]
  have hcnt256 : V102.getCardCount e + 1 < 256 := by
    have h80 : V102.getCardCount e < 80 := hcap
    omega
  have hcountval : V102.getCardCount
      (V102.setCardCount (V102.storeCardSlot e (V102.getCardCount e) uid)
        (V102.getCardCount e + 1)) = (V102.getCardCount e + 1) % 256 := by
    simp [V102.getCardCount, V102.setCardCount, V102.eepromWriteByte, updAt]
  refine ⟨by rw [hred], ?_, ?_, ?_, ?_⟩
  · rw [hred, hcountval]
    exact Nat.mod_eq_of_lt hcnt256
  · rw [hred]
    have hbase : ∀ j, j < V102.CARD_SLOT_BYTES →
        (V102.setCardCount (V102.storeCardSlot e (V102.getCardCount e) uid)
          (V102.getCardCount e + 1))
          (V102.CARD_START_ADDR + V102.getCardCount e * V102.CARD_SLOT_BYTES + j)
          = uid.getD j 0 := by
      intro j hj
      have hjlen : j < uid.length := by
        simp only [V102.CARD_SLOT_BYTES] at hj
        omega
      have haddr : V102.CARD_START_ADDR + V102.getCardCount e * V102.CARD_SLOT_BYTES + j
          ≠ 0 := by
        simp [V102.CARD_START_ADDR]
      have h1 : (V102.setCardCount (V102.storeCardSlot e (V102.getCardCount e) uid)
          (V102.getCardCount e + 1))
          (V102.CARD_START_ADDR + V102.getCardCount e * V102.CARD_SLOT_BYTES + j)
          = (V102.storeCardSlot e (V102.getCardCount e) uid)
            (V102.CARD_START_ADDR + V102.getCardCount e * V102.CARD_SLOT_BYTES + j) := by
        show updAt _ 0 _ _ = _
        exact updAt_ne _ _ _ _ haddr
      rw [h1, V102.storeCardSlot,
        V102.range_foldl_write_in (fun i => if i < uid.length then uid.getD i 0 else 0)
          (V102.CARD_START_ADDR + V102.getCardCount e * V102.CARD_SLOT_BYTES)
          V102.CARD_SLOT_BYTES e j hj,
        if_pos hjlen]
      exact Nat.mod_eq_of_lt (hbytes _ (getD_mem uid j 0 hjlen)).2
    rw [V102.readCardSlot]
    have htk : (uid.take V102.CARD_SLOT_BYTES).length = V102.CARD_SLOT_BYTES := by
      rw [List.length_take]
      simp only [V102.CARD_SLOT_BYTES]
      omega
    have hrsg : V102.readSlotGo
        (V102.setCardCount (V102.storeCardSlot e (V102.getCardCount e) uid)
          (V102.getCardCount e + 1))
        (V102.CARD_START_ADDR + V102.getCardCount e * V102.CARD_SLOT_BYTES)
        ((uid.take V102.CARD_SLOT_BYTES).length) = uid.take V102.CARD_SLOT_BYTES := by
      apply V102.readSlotGo_eq
      · intro j hj
        rw [htk] at hj
        rw [getD_take uid V102.CARD_SLOT_BYTES j 0 hj]
        exact hbase j hj
      · intro b hb
        have hbu := hbytes b (List.take_subset _ _ hb)
        omega
    rw [htk] at hrsg
    exact hrsg
  · exact V102.findCardIndex_long _ uid hlong
  · have habs2 : V102.findSlot? (V102.addCard e uid).1 uid = none :=
      V102.findSlot?_long _ uid hlong
    simp only [V102.removeCard, habs2]

/-- C10 witness: a 17-character identifier added to an empty EEPROM store
consumes slot 0 (count 1, slot holds the first 16 bytes) but can no longer
be found or removed. -/
theorem c10_slot_truncation_w :
    (V102.addCard (fun _ => 0) (List.replicate 17 65)).2 = Int.ofNat 0
    ∧ V102.getCardCount (V102.addCard (fun _ => 0) (List.replicate 17 65)).1 = 1
    ∧ V102.readCardSlot (V102.addCard (fun _ => 0) (List.replicate 17 65)).1 0
        = (List.replicate 17 65).take V102.CARD_SLOT_BYTES
    ∧ V102.findCardIndex (V102.addCard (fun _ => 0) (List.replicate 17 65)).1
        (List.replicate 17 65) = -1
    ∧ V102.removeCard (V102.addCard (fun _ => 0) (List.replicate 17 65)).1
        (List.replicate 17 65)
        = ((V102.addCard (fun _ => 0) (List.replicate 17 65)).1, false) := by
  have h := c10_slot_truncation (fun _ => 0) (List.replicate 17 65) (by decide)
    (by decide) (by decide)
  exact ⟨h.1, h.2.1, h.2.2.1, h.2.2.2.1, h.2.2.2.2⟩

end RFIDRainmaker
